import Mathlib

/-!
Shallow embedding of the maulstrom wormhole-chess move-legality core
(bitboard primitives, ray casting, wormhole transmission, defense,
blockable, compute, trace, state delta and transition, Chess960 init),
together with theorems settling the specification claims.

Machine integers are modelled as `Nat` with explicit masking by
`2^64 - 1` wherever Rust `u64` wrap-around matters.
-/

namespace Maulstrom

def U64MAX : Nat := 2 ^ 64 - 1

/-- Bitwise complement on a `u64` value, i.e. Rust `!x`. -/
def bnot (x : Nat) : Nat := x ^^^ U64MAX

/-- Fuel-driven count of trailing zeros, mirroring `u64::trailing_zeros`
for nonzero inputs below `2^64`. -/
def ctzAux : Nat → Nat → Nat
  | 0, _ => 0
  | fuel + 1, n => if n % 2 = 1 then 0 else ctzAux fuel (n / 2) + 1

def ctz (n : Nat) : Nat := if n = 0 then 64 else ctzAux 64 n

/-- Fuel-driven floor of log2, used to mirror `u64::leading_zeros`. -/
def flogAux : Nat → Nat → Nat
  | 0, _ => 0
  | fuel + 1, n => if n < 2 then 0 else flogAux fuel (n / 2) + 1

def flog2 (n : Nat) : Nat := flogAux 64 n

/-- `u64::leading_zeros`, for values below `2^64`. -/
def lz (n : Nat) : Nat := if n = 0 then 64 else 63 - flog2 n

/-- Fuel-driven population count, mirroring `u64::count_ones`. -/
def popAux : Nat → Nat → Nat
  | 0, _ => 0
  | fuel + 1, n => n % 2 + popAux fuel (n / 2)

/-- The square type from `square.rs`: a bare index, rank-major. -/
structure Square where
  idx : Nat
deriving DecidableEq, Repr

namespace Square

def toMask (s : Square) : Nat := 1 <<< s.idx

def toIndex (s : Square) : Nat := s.idx

def fromIndex (i : Nat) : Square := ⟨i⟩

def rankU8 (s : Square) : Nat := s.idx >>> 3

def fileU8 (s : Square) : Nat := s.idx &&& 7

/-- `Square::new(rank, file)`, with rank and file as numbers 0..7. -/
def new (rank file : Nat) : Square := ⟨(rank <<< 3) ||| file⟩

/-- `Square::next(delta)`: step by a (rank, file) delta, `none` off board. -/
def next (s : Square) (d : Int × Int) : Option Square :=
  let rank : Int := (s.rankU8 : Int) + d.1
  let file : Int := (s.fileU8 : Int) + d.2
  if 0 ≤ rank ∧ rank < 8 ∧ 0 ≤ file ∧ file < 8 then
    some ⟨(rank.toNat <<< 3) ||| file.toNat⟩
  else
    none

end Square

namespace BitBoard

/-- `BitBoard::is_set` / `has`. -/
def hasSq (b : Nat) (sq : Square) : Bool := b &&& sq.toMask != 0

/-- `BitBoard::intersects`. -/
def intersects (b rhs : Nat) : Bool := b &&& rhs != 0

/-- `BitBoard::without`. -/
def without (b : Nat) (sq : Square) : Nat := b &&& bnot sq.toMask

/-- `BitBoard::count`. -/
def count (b : Nat) : Nat := popAux 64 b

/-- `BitBoard::first`: lowest set square. -/
def first (b : Nat) : Option Square :=
  if b != 0 then some (Square.fromIndex (ctz b)) else none

/-- `BitBoard::last`: highest set square. -/
def last (b : Nat) : Option Square :=
  if b != 0 then some (Square.fromIndex (63 - lz b)) else none

/-- `BitBoard::transmit`: wormhole transmission of a mask. -/
def transmit (b tx : Nat) : Nat := if intersects b tx then b ||| tx else b

/-- `BitBoard::with_rank_u8`. -/
def withRankU8 (b : Nat) (rank : Nat) : Nat := b ||| (0xFF <<< (rank * 8))

/-- `BitBoard::with_file_u8`. -/
def withFileU8 (b : Nat) (file : Nat) : Nat := b ||| (0x0101010101010101 <<< file)

/-- `BitBoard::pawn_captures` shift formula (White case selector below). -/
def pawnCapturesWhite (p : Nat) : Nat :=
  let pr := p &&& bnot 0x8080808080808080
  let pl := p &&& bnot 0x0101010101010101
  ((pl <<< 7) ||| (pr <<< 9)) &&& U64MAX

def pawnCapturesBlack (p : Nat) : Nat :=
  let pr := p &&& bnot 0x8080808080808080
  let pl := p &&& bnot 0x0101010101010101
  (pl >>> 9) ||| (pr >>> 7)

/-- The ascending list of set squares, as `BitBoardIter` yields them. -/
def squaresOf (b : Nat) : List Square :=
  ((List.range 64).filter (fun i => b.testBit i)).map Square.fromIndex

end BitBoard

/-- Union of the masks of a list of squares. -/
def maskOfList (l : List Square) : Nat :=
  l.foldl (fun m t => m ||| t.toMask) 0

/-- Walk from a square by a fixed delta, collecting visited squares
(source excluded), up to the given fuel. -/
def walk (d : Int × Int) : Nat → Square → List Square
  | 0, _ => []
  | n + 1, sq =>
    match sq.next d with
    | none => []
    | some t => t :: walk d n t

/-- The `Ray` direction enum from `ray.rs`. -/
inductive Ray
  | PosPos
  | NegNeg
  | PosNeg
  | NegPos
  | PosZero
  | NegZero
  | ZeroPos
  | ZeroNeg
deriving DecidableEq, Repr

namespace Ray

def delta : Ray → Int × Int
  | PosPos => (1, 1)
  | NegNeg => (-1, -1)
  | PosNeg => (1, -1)
  | NegPos => (-1, 1)
  | PosZero => (1, 0)
  | NegZero => (-1, 0)
  | ZeroPos => (0, 1)
  | ZeroNeg => (0, -1)

/-- Directions whose travel order is ascending in square index; these are
exactly the directions `ray.rs` truncates with `truncate_lt`. -/
def ascending : Ray → Bool
  | PosPos => true
  | PosNeg => true
  | PosZero => true
  | ZeroPos => true
  | _ => false

end Ray

/-- Modelled from the spec: the `RAY_*_EXCLUSIVE` precomputed tables live in
the absent `cached.rs`; per section 2 they are the per-square exclusive rays
in 8 directions (all squares strictly along the direction from the source
to the board edge). -/
def rayTable (d : Ray) (sq : Square) : Nat :=
  maskOfList (walk d.delta 8 sq)

/-- `ray.rs truncate_lt`. -/
def truncateLt (ray occ : Nat) : Nat :=
  let o := ray &&& occ
  if o = 0 then ray else ray &&& (U64MAX >>> (63 - ctz o))

/-- `ray.rs truncate_gt`. -/
def truncateGt (ray occ : Nat) : Nat :=
  let o := ray &&& occ
  if o = 0 then ray else ray &&& ((U64MAX <<< (63 - lz o)) &&& U64MAX)

/-- `Ray::cast`: the 8 direction functions `pos_zero` .. `neg_pos`
dispatched by direction, each truncating the precomputed exclusive ray at
the nearest blocker. -/
def Ray.cast (d : Ray) (src : Square) (occ : Nat) : Nat :=
  if d.ascending then truncateLt (rayTable d src) occ else truncateGt (rayTable d src) occ

/-- Modelled from the spec: the `KING_MOVES` table of the absent `cached.rs`;
the expected contents are pinned down by the `king_moves` test in `square.rs`. -/
def KING_MOVES (sq : Square) : Nat :=
  [((-1 : Int), (-1 : Int)), (-1, 0), (-1, 1), (0, -1), (0, 1), (1, -1), (1, 0), (1, 1)].foldl
    (fun m d => match sq.next d with | some t => m ||| t.toMask | none => m) 0

/-- Modelled from the spec: the `KNIGHT_MOVES` table of the absent `cached.rs`;
the expected contents are pinned down by the `knight_moves` test in `square.rs`. -/
def KNIGHT_MOVES (sq : Square) : Nat :=
  [((-1 : Int), (-2 : Int)), (1, -2), (-1, 2), (1, 2), (-2, -1), (-2, 1), (2, -1), (2, 1)].foldl
    (fun m d => match sq.next d with | some t => m ||| t.toMask | none => m) 0

/-- Modelled from the spec: the `WHITE_PAWN_ATTACKS` table of the absent
`cached.rs`, matching the `BitBoard::pawn_captures` shift formula of `board.rs`
applied to the single-square mask. -/
def WHITE_PAWN_ATTACKS (sq : Square) : Nat :=
  BitBoard.pawnCapturesWhite sq.toMask

/-- Modelled from the spec: the `BLACK_PAWN_ATTACKS` table of the absent
`cached.rs`, matching `BitBoard::pawn_captures` for Black. -/
def BLACK_PAWN_ATTACKS (sq : Square) : Nat :=
  BitBoard.pawnCapturesBlack sq.toMask

def allRayDirs : List Ray :=
  [Ray.PosZero, Ray.NegZero, Ray.ZeroNeg, Ray.ZeroPos,
   Ray.PosPos, Ray.NegNeg, Ray.NegPos, Ray.PosNeg]

/-- Prefix of a list up to and including the first occurrence of `b`. -/
def prefixThrough (b : Square) : List Square → List Square
  | [] => []
  | t :: ts => if t = b then [t] else t :: prefixThrough b ts

/-- Modelled from the spec: the `BETWEEN_EXCLUSIVE` table of the absent
`cached.rs`; per the doc comment on `Square::between` it holds the squares
between the two endpoints, including the second and excluding the first,
and is empty when the squares are not aligned. -/
def BETWEEN_EXCLUSIVE (a b : Square) : Nat :=
  match allRayDirs.find? (fun d => BitBoard.hasSq (rayTable d a) b) with
  | some d => maskOfList (prefixThrough b (walk d.delta 8 a))
  | none => 0

/-- `Square::between`. -/
def Square.between (a b : Square) : Nat := BETWEEN_EXCLUSIVE a b

/-- `Square::ortho_ray`: direction lookup in source order. -/
def Square.orthoRay (s rhs : Square) : Option Ray :=
  let j := rhs.toMask
  if rayTable .PosZero s &&& j != 0 then some .PosZero
  else if rayTable .NegZero s &&& j != 0 then some .NegZero
  else if rayTable .ZeroNeg s &&& j != 0 then some .ZeroNeg
  else if rayTable .ZeroPos s &&& j != 0 then some .ZeroPos
  else none

/-- `Square::diag_ray`: direction lookup in source order. -/
def Square.diagRay (s rhs : Square) : Option Ray :=
  let j := rhs.toMask
  if rayTable .PosPos s &&& j != 0 then some .PosPos
  else if rayTable .NegNeg s &&& j != 0 then some .NegNeg
  else if rayTable .NegPos s &&& j != 0 then some .NegPos
  else if rayTable .PosNeg s &&& j != 0 then some .PosNeg
  else none

/-- `Square::ray`: direction lookup in source order. -/
def Square.ray (s rhs : Square) : Option Ray :=
  let j := rhs.toMask
  if rayTable .PosZero s &&& j != 0 then some .PosZero
  else if rayTable .NegZero s &&& j != 0 then some .NegZero
  else if rayTable .ZeroNeg s &&& j != 0 then some .ZeroNeg
  else if rayTable .ZeroPos s &&& j != 0 then some .ZeroPos
  else if rayTable .PosPos s &&& j != 0 then some .PosPos
  else if rayTable .NegNeg s &&& j != 0 then some .NegNeg
  else if rayTable .NegPos s &&& j != 0 then some .NegPos
  else if rayTable .PosNeg s &&& j != 0 then some .PosNeg
  else none

/-- Modelled from the spec: `magic::get_rook_moves` lives in the absent
`magic.rs`; per sections 4.1 and 4.5 it is the union of the four orthogonal
rays truncated at the first blocker (inclusive). -/
def rookMovesMagic (sq : Square) (occ : Nat) : Nat :=
  Ray.cast .PosZero sq occ ||| Ray.cast .NegZero sq occ |||
  Ray.cast .ZeroPos sq occ ||| Ray.cast .ZeroNeg sq occ

/-- Modelled from the spec: `magic::get_bishop_moves` lives in the absent
`magic.rs`; per sections 4.1 and 4.5 it is the union of the four diagonal
rays truncated at the first blocker (inclusive). -/
def bishopMovesMagic (sq : Square) (occ : Nat) : Nat :=
  Ray.cast .PosPos sq occ ||| Ray.cast .NegNeg sq occ |||
  Ray.cast .PosNeg sq occ ||| Ray.cast .NegPos sq occ

/-- `Square::king_moves`. -/
def Square.kingMoves (s : Square) : Nat := KING_MOVES s

/-- `Square::knight_moves`. -/
def Square.knightMoves (s : Square) : Nat := KNIGHT_MOVES s

/-- `Square::rook_moves`. -/
def Square.rookMoves (s : Square) (occupied : Nat) : Nat := rookMovesMagic s occupied

/-- `Square::bishop_moves`. -/
def Square.bishopMoves (s : Square) (occupied : Nat) : Nat := bishopMovesMagic s occupied

/-- The `Team` enum from `team.rs`. -/
inductive Team
  | White
  | Black
deriving DecidableEq, Repr

namespace Team

/-- `Not for Team`. -/
def tnot : Team → Team
  | White => Black
  | Black => White

def pawnDir : Team → Int
  | White => 1
  | Black => -1

def backRankU8 : Team → Nat
  | White => 0
  | Black => 7

def pawnRankU8 : Team → Nat
  | White => 1
  | Black => 6

end Team

/-- `Square::pawn_captures`, team-dispatched table lookup. -/
def Square.pawnCaptures (s : Square) (team : Team) : Nat :=
  match team with
  | .White => WHITE_PAWN_ATTACKS s
  | .Black => BLACK_PAWN_ATTACKS s

/-- The `Piece` enum from `pieces.rs`. -/
inductive Piece
  | Bishop
  | Knight
  | Queen
  | King
  | Rook
  | Pawn
deriving DecidableEq, Repr

namespace Piece

/-- `Piece::to_u8`. -/
def toU8 : Piece → Nat
  | Bishop => 0
  | Knight => 1
  | Queen => 2
  | Rook => 3
  | King => 4
  | Pawn => 5

/-- `Piece::from_u8`. -/
def fromU8 (u : Nat) : Option Piece :=
  match u with
  | 0 => some Bishop
  | 1 => some Knight
  | 2 => some Queen
  | 3 => some King
  | 4 => some Rook
  | 5 => some Pawn
  | _ => none

end Piece

/-- The `Pieces` struct from `pieces.rs`: six kind masks plus the two
side-occupancy masks. -/
structure Pieces where
  bishops : Nat
  knights : Nat
  queens : Nat
  kings : Nat
  rooks : Nat
  pawns : Nat
  white : Nat
  black : Nat
deriving DecidableEq, Repr

namespace Pieces

def index (p : Pieces) (piece : Piece) : Nat :=
  match piece with
  | .Bishop => p.bishops
  | .Knight => p.knights
  | .Queen => p.queens
  | .Rook => p.rooks
  | .King => p.kings
  | .Pawn => p.pawns

def onTeam (p : Pieces) (team : Team) : Nat :=
  match team with
  | .White => p.white
  | .Black => p.black

def get (p : Pieces) (piece : Piece) (team : Team) : Nat :=
  p.index piece &&& p.onTeam team

def all (p : Pieces) (pieces : List Piece) (team : Team) : Nat :=
  (pieces.foldl (fun acc pc => acc ||| p.index pc) 0) &&& p.onTeam team

def occupied (p : Pieces) : Nat := p.white ||| p.black

def pieceAt (p : Pieces) (at_ : Square) : Option Piece :=
  if !(BitBoard.hasSq (p.white ||| p.black) at_) then none
  else if BitBoard.hasSq p.bishops at_ then some .Bishop
  else if BitBoard.hasSq p.knights at_ then some .Knight
  else if BitBoard.hasSq p.queens at_ then some .Queen
  else if BitBoard.hasSq p.kings at_ then some .King
  else if BitBoard.hasSq p.rooks at_ then some .Rook
  else if BitBoard.hasSq p.pawns at_ then some .Pawn
  else none

/-- `Pieces::piece_at_or_on_hole`. -/
def pieceAtOrOnHole (p : Pieces) (at_ : Square) (holes : Nat) : Option Piece :=
  if BitBoard.hasSq holes at_ then
    if !(BitBoard.intersects (p.white ||| p.black) holes) then none
    else if BitBoard.intersects p.bishops holes then some .Bishop
    else if BitBoard.intersects p.knights holes then some .Knight
    else if BitBoard.intersects p.queens holes then some .Queen
    else if BitBoard.intersects p.kings holes then some .King
    else if BitBoard.intersects p.rooks holes then some .Rook
    else if BitBoard.intersects p.pawns holes then some .Pawn
    else none
  else
    p.pieceAt at_

/-- `Pieces::remove` (the returned piece is discarded by every caller in
the move-transition code, so only the mask mutation is modelled). -/
def remove (p : Pieces) (at_ : Square) (holes : Nat) : Pieces :=
  let sqs := if BitBoard.hasSq holes at_ then holes else at_.toMask
  let p := if BitBoard.intersects p.white sqs then { p with white := p.white &&& bnot sqs } else p
  let p := if BitBoard.intersects p.black sqs then { p with black := p.black &&& bnot sqs } else p
  if BitBoard.intersects p.bishops sqs then { p with bishops := p.bishops &&& bnot sqs }
  else if BitBoard.intersects p.knights sqs then { p with knights := p.knights &&& bnot sqs }
  else if BitBoard.intersects p.queens sqs then { p with queens := p.queens &&& bnot sqs }
  else if BitBoard.intersects p.kings sqs then { p with kings := p.kings &&& bnot sqs }
  else if BitBoard.intersects p.rooks sqs then { p with rooks := p.rooks &&& bnot sqs }
  else if BitBoard.intersects p.pawns sqs then { p with pawns := p.pawns &&& bnot sqs }
  else p

/-- Modelled from the spec: `Pieces::insert_unchecked` is called by
`BoardState::next`/`prev` but absent from `pieces.rs`; per section 4.7 it
places the given piece of the given team on the square (no clearing, as
the `unchecked` name and the callers' preceding `remove` calls indicate). -/
def insertUnchecked (p : Pieces) (at_ : Square) (pc : Piece) (team : Team) : Pieces :=
  let p := match team with
    | .White => { p with white := p.white ||| at_.toMask }
    | .Black => { p with black := p.black ||| at_.toMask }
  match pc with
  | .Bishop => { p with bishops := p.bishops ||| at_.toMask }
  | .Knight => { p with knights := p.knights ||| at_.toMask }
  | .Queen => { p with queens := p.queens ||| at_.toMask }
  | .King => { p with kings := p.kings ||| at_.toMask }
  | .Rook => { p with rooks := p.rooks ||| at_.toMask }
  | .Pawn => { p with pawns := p.pawns ||| at_.toMask }

/-- `Pieces::setup_from_file`: mirror a back-rank piece for both teams. -/
def setupFromFile (p : Pieces) (piece : Piece) (file : Nat) : Pieces :=
  let w := Square.new 0 file
  let b := Square.new 7 file
  let sqs := w.toMask ||| b.toMask
  let p := { p with white := p.white ||| w.toMask, black := p.black ||| b.toMask }
  match piece with
  | .Bishop => { p with bishops := p.bishops ||| sqs }
  | .Knight => { p with knights := p.knights ||| sqs }
  | .Queen => { p with queens := p.queens ||| sqs }
  | .King => { p with kings := p.kings ||| sqs }
  | .Rook => { p with rooks := p.rooks ||| sqs }
  | .Pawn => { p with pawns := p.pawns ||| sqs }

/-- `Pieces::just_pawns`. -/
def justPawns : Pieces where
  bishops := 0
  knights := 0
  queens := 0
  kings := 0
  rooks := 0
  pawns := BitBoard.withRankU8 (BitBoard.withRankU8 0 1) 6
  white := BitBoard.withRankU8 0 1
  black := BitBoard.withRankU8 0 6

/-- `Default for Pieces`: the standard chess starting position. -/
def default : Pieces where
  knights := 0x4200000000000042
  bishops := 0x2400000000000024
  queens := 0x800000000000008
  kings := 0x1000000000000010
  pawns := 0x00FF00000000FF00
  rooks := 0x8100000000000081
  white := 0x000000000000FFFF
  black := 0xFFFF000000000000

end Pieces

/-- The `Castle` enum from `castle.rs`. -/
inductive Castle
  | Short
  | Long
deriving DecidableEq, Repr

/-- `CastleSettings` from `castle.rs`, files as numbers 0..7. -/
structure CastleSettings where
  kingFile : Nat
  shortFile : Nat
  longFile : Nat
deriving DecidableEq, Repr

def CastleSettings.default : CastleSettings :=
  { kingFile := 4, shortFile := 7, longFile := 0 }

/-- `CastleRights` from `castle.rs`. -/
structure CastleRights where
  rights : Nat
  settings : CastleSettings
deriving DecidableEq, Repr

namespace CastleRights

/-- `CastleRights::has`. -/
def has (r : CastleRights) (side : Castle) (team : Team) : Bool :=
  match side, team with
  | .Short, .White => r.rights &&& 0b0001 != 0
  | .Short, .Black => r.rights &&& 0b0100 != 0
  | .Long, .White => r.rights &&& 0b0010 != 0
  | .Long, .Black => r.rights &&& 0b1000 != 0

/-- `CastleRights::lose` (mutation part; the change flag is unused by the
claim-relevant callers). -/
def lose (r : CastleRights) (side : Castle) (team : Team) : CastleRights :=
  if r.has side team then
    match side, team with
    | .Short, .White => { r with rights := r.rights ^^^ 0b0001 }
    | .Short, .Black => { r with rights := r.rights ^^^ 0b0100 }
    | .Long, .White => { r with rights := r.rights ^^^ 0b0010 }
    | .Long, .Black => { r with rights := r.rights ^^^ 0b1000 }
  else r

/-- `CastleRights::set_rook`. -/
def setRook (r : CastleRights) (side : Castle) (file : Nat) : CastleRights :=
  match side with
  | .Long => { r with settings := { r.settings with longFile := file } }
  | .Short => { r with settings := { r.settings with shortFile := file } }

/-- `CastleRights::set_king`. -/
def setKing (r : CastleRights) (file : Nat) : CastleRights :=
  { r with settings := { r.settings with kingFile := file } }

/-- `CastleRights::rook_start`. -/
def rookStart (r : CastleRights) (side : Castle) (team : Team) : Square :=
  match side with
  | .Short => Square.new team.backRankU8 r.settings.shortFile
  | .Long => Square.new team.backRankU8 r.settings.longFile

/-- `CastleRights::rook_target`: F file for short, D file for long. -/
def rookTarget (_r : CastleRights) (side : Castle) (team : Team) : Square :=
  match side with
  | .Short => Square.new team.backRankU8 5
  | .Long => Square.new team.backRankU8 3

/-- `CastleRights::king_start`. -/
def kingStart (r : CastleRights) (team : Team) : Square :=
  Square.new team.backRankU8 r.settings.kingFile

/-- `CastleRights::king_target`: G file for short, C file for long. -/
def kingTarget (_r : CastleRights) (side : Castle) (team : Team) : Square :=
  match side with
  | .Short => Square.new team.backRankU8 6
  | .Long => Square.new team.backRankU8 2

/-- `CastleRights::required_unchecked_squares`. -/
def requiredUncheckedSquares (r : CastleRights) (king : Square) (side : Castle) (team : Team) : Nat :=
  let tar := r.kingTarget side team
  BETWEEN_EXCLUSIVE tar king ||| king.toMask ||| tar.toMask

/-- `CastleRights::required_unoccupied_squares`. -/
def requiredUnoccupiedSquares (r : CastleRights) (king : Square) (side : Castle) (team : Team) : Nat :=
  let rookSrc := r.rookStart side team
  let rookTar := r.rookTarget side team
  let kingTar := r.kingTarget side team
  BitBoard.without
    (BitBoard.without (BETWEEN_EXCLUSIVE rookSrc rookTar ||| BETWEEN_EXCLUSIVE king kingTar) rookSrc)
    king

def default : CastleRights :=
  { rights := 0b1111, settings := CastleSettings.default }

end CastleRights

/-- `castle.rs can_castle`. -/
def canCastle (side : Castle) (team : Team) (rights : CastleRights)
    (defense occupied : Nat) (king : Square) : Bool :=
  rights.has side team &&
  !(BitBoard.intersects defense (rights.requiredUncheckedSquares king side team)) &&
  !(BitBoard.intersects occupied (rights.requiredUnoccupiedSquares king side team))

/-- Modelled from the spec: `CastleRights::move_loses_castle` is called by
`trace` but absent from `castle.rs`; per the `MoveTrace::loses_castle` doc
comment a side is lost when the moving rook leaves its configured start
square while that right is still held. -/
def CastleRights.moveLosesCastle (r : CastleRights) (srcs : Nat) (team : Team) : Option Castle :=
  if BitBoard.hasSq srcs (r.rookStart .Long team) && r.has .Long team then some .Long
  else if BitBoard.hasSq srcs (r.rookStart .Short team) && r.has .Short team then some .Short
  else none

/-- Modelled from the spec: `CastleRights::capture_takes_castle` is called by
`trace` but absent from `castle.rs`; per the `MoveTrace::takes_castle` doc
comment a side is taken when the capture lands on the opponent rook's
configured start square while that right is still held. -/
def CastleRights.captureTakesCastle (r : CastleRights) (dsts : Nat) (team : Team) : Option Castle :=
  if BitBoard.hasSq dsts (r.rookStart .Long team) && r.has .Long team then some .Long
  else if BitBoard.hasSq dsts (r.rookStart .Short team) && r.has .Short team then some .Short
  else none

-- The `DeltaFlags` bitflags from `game.rs`.
namespace DeltaFlags

def IS_EN_PASSANT : Nat := 1
def IS_DOUBLE_PUSH : Nat := 1 <<< 1
def HAS_PREV_EP_SQ : Nat := 1 <<< 2
def TIME_SECONDS : Nat := 1 <<< 3
def RESET_HALFMOVES : Nat := 1 <<< 4
def IS_CAPTURE : Nat := 1 <<< 5
def IS_PROMOTE : Nat := 1 <<< 6
def IS_CASTLE : Nat := 1 <<< 7
def HOLE_PUSHED : Nat := 1 <<< 8
def HOLE_POPPED : Nat := 1 <<< 9
def HOLE_WILL_POP : Nat := 1 <<< 10

/-- `bitflags` `contains`. -/
def contains (f flag : Nat) : Bool := f &&& flag == flag

/-- `bitflags` `remove`. -/
def remove (f flag : Nat) : Nat := f &&& bnot flag

end DeltaFlags

/-- The bit-packed `BoardDelta` from `game.rs` (the variant consumed by
`BoardState::next`/`prev`). -/
structure BoardDelta where
  val : Nat
deriving DecidableEq, Repr

namespace BoardDelta

def FLAG_LEN : Nat := 11
def FLAG_OFFS : Nat := 0
def SRC_SQ_LEN : Nat := 6
def SRC_SQ_OFFS : Nat := FLAG_LEN
def DST_SQ_LEN : Nat := 6
def DST_SQ_OFFS : Nat := SRC_SQ_OFFS + SRC_SQ_LEN
def TIME_LEN : Nat := 13
def TIME_OFFS : Nat := DST_SQ_OFFS + DST_SQ_LEN
def CAPTURE_LEN : Nat := 3
def CAPTURE_OFFS : Nat := TIME_OFFS + TIME_LEN
def PROMOTE_LEN : Nat := 2
def PROMOTE_OFFS : Nat := CAPTURE_OFFS + CAPTURE_LEN
def PREV_EP_SQ_LEN : Nat := 6
def PREV_EP_SQ_OFFS : Nat := PROMOTE_OFFS + PROMOTE_LEN
def CASTLE_LEN : Nat := 4
def CASTLE_OFFS : Nat := PREV_EP_SQ_OFFS + PREV_EP_SQ_LEN
def HOLE_SQ_LEN : Nat := 6
def HOLE_SQ_OFFS : Nat := CASTLE_OFFS + CASTLE_LEN
def HALFMOVES_LEN : Nat := 6
def HALFMOVES_OFFS : Nat := HOLE_SQ_OFFS + HOLE_SQ_LEN

def extract (val len offs : Nat) : Nat := (val >>> offs) &&& ((1 <<< len) - 1)

def deposit (val len offs item : Nat) : Nat :=
  (val &&& bnot (((1 <<< len) - 1) <<< offs)) ||| (item <<< offs)

def getFlags (d : BoardDelta) : Nat := extract d.val FLAG_LEN FLAG_OFFS

def setFlags (d : BoardDelta) (flags : Nat) : BoardDelta :=
  ⟨deposit d.val FLAG_LEN FLAG_OFFS flags⟩

def addFlags (d : BoardDelta) (flags : Nat) : BoardDelta :=
  ⟨deposit d.val FLAG_LEN FLAG_OFFS (flags ||| d.getFlags)⟩

def getSrcSq (d : BoardDelta) : Square :=
  Square.fromIndex (extract d.val SRC_SQ_LEN SRC_SQ_OFFS)

def setSrcSq (d : BoardDelta) (src : Square) : BoardDelta :=
  ⟨deposit d.val SRC_SQ_LEN SRC_SQ_OFFS src.toIndex⟩

def getDstSq (d : BoardDelta) : Square :=
  Square.fromIndex (extract d.val DST_SQ_LEN DST_SQ_OFFS)

def setDstSq (d : BoardDelta) (dst : Square) : BoardDelta :=
  ⟨deposit d.val DST_SQ_LEN DST_SQ_OFFS dst.toIndex⟩

/-- `BoardDelta::get_capture_pc`; the Rust body wraps `Piece::from_u8` in a
`bool::then`, which every consumer treats as a flat `Option<Piece>`, so the
two option layers are joined here. -/
def getCapturePc (d : BoardDelta) : Option Piece :=
  if DeltaFlags.contains d.getFlags DeltaFlags.IS_CAPTURE then
    Piece.fromU8 (extract d.val CAPTURE_LEN CAPTURE_OFFS)
  else none

def setCapturePc (d : BoardDelta) (pc : Option Piece) : BoardDelta :=
  match pc with
  | some pc0 =>
    let d := d.setFlags (d.getFlags ||| DeltaFlags.IS_CAPTURE)
    ⟨deposit d.val CAPTURE_LEN CAPTURE_OFFS pc0.toU8⟩
  | none =>
    d.setFlags (DeltaFlags.remove d.getFlags DeltaFlags.IS_CAPTURE)

/-- `BoardDelta::get_promote_pc` (option layers joined as for captures). -/
def getPromotePc (d : BoardDelta) : Option Piece :=
  if DeltaFlags.contains d.getFlags DeltaFlags.IS_PROMOTE then
    Piece.fromU8 (extract d.val PROMOTE_LEN PROMOTE_OFFS)
  else none

def setPromotePc (d : BoardDelta) (pc : Option Piece) : BoardDelta :=
  match pc with
  | some pc0 =>
    let d := d.setFlags (d.getFlags ||| DeltaFlags.IS_PROMOTE)
    ⟨deposit d.val PROMOTE_LEN PROMOTE_OFFS pc0.toU8⟩
  | none =>
    d.setFlags (DeltaFlags.remove d.getFlags DeltaFlags.IS_PROMOTE)

def getPrevEpSq (d : BoardDelta) : Option Square :=
  if DeltaFlags.contains d.getFlags DeltaFlags.IS_DOUBLE_PUSH then
    some (Square.fromIndex (extract d.val PREV_EP_SQ_LEN PREV_EP_SQ_OFFS))
  else none

def setPrevEpSq (d : BoardDelta) (sq : Option Square) : BoardDelta :=
  match sq with
  | some sq0 =>
    let d := d.setFlags (d.getFlags ||| DeltaFlags.IS_DOUBLE_PUSH)
    ⟨deposit d.val PREV_EP_SQ_LEN PREV_EP_SQ_OFFS sq0.toIndex⟩
  | none =>
    d.setFlags (DeltaFlags.remove d.getFlags DeltaFlags.IS_DOUBLE_PUSH)

/-- `BoardDelta::get_castle_rights`: the rights of the RESULTING position. -/
def getCastleRights (d : BoardDelta) : Nat := extract d.val CASTLE_LEN CASTLE_OFFS

def setCastleRights (d : BoardDelta) (rights : Nat) : BoardDelta :=
  ⟨deposit d.val CASTLE_LEN CASTLE_OFFS rights⟩

def getHoleSquare (d : BoardDelta) : Option Square :=
  if DeltaFlags.contains d.getFlags DeltaFlags.HOLE_PUSHED ||
     DeltaFlags.contains d.getFlags DeltaFlags.HOLE_POPPED then
    some (Square.fromIndex (extract d.val HOLE_SQ_LEN HOLE_SQ_OFFS))
  else none

def getPrevHalfmoves (d : BoardDelta) : Nat := extract d.val HALFMOVES_LEN HALFMOVES_OFFS

def setPrevHalfmoves (d : BoardDelta) (halfmoves : Nat) : BoardDelta :=
  ⟨deposit d.val HALFMOVES_LEN HALFMOVES_OFFS halfmoves⟩

/-- `BoardDelta::castle_side`. -/
def castleSide (d : BoardDelta) : Option Castle :=
  if DeltaFlags.contains d.getFlags DeltaFlags.IS_CASTLE then
    if d.getDstSq.idx < d.getSrcSq.idx then some .Long else some .Short
  else none

end BoardDelta

/-- `BoardState` from `state.rs`. -/
structure BoardState where
  enPassant : Option Square
  nextHole : Option Square
  holeIn1 : Bool
  wormholes : Nat
  fullmoves : Nat
  halfmoves : Nat
  pieces : Pieces
  castle : CastleRights
  turn : Team
deriving DecidableEq, Repr

/-- Modelled from the spec: the `Add<(i8, i8)>` impl for `Square` used by
`next`'s double-push branch is absent from `square.rs`; it steps the square
by the delta (off-board inputs do not occur on the legal paths). -/
def Square.addDelta (s : Square) (d : Int × Int) : Square := (s.next d).getD s

namespace BoardState

/-- `BoardState::next`: apply a delta. -/
def next (s : BoardState) (delta : BoardDelta) : BoardState :=
  let flags := delta.getFlags
  let src := delta.getSrcSq
  let dst := delta.getDstSq
  let movedPiece := s.pieces.pieceAtOrOnHole src s.wormholes
  let n := s
  let n :=
    match delta.castleSide with
    | some side =>
      let pcs := n.pieces.remove (s.castle.kingStart s.turn) 0
      let pcs := pcs.remove (s.castle.rookStart side s.turn) 0
      let pcs := pcs.insertUnchecked (s.castle.kingTarget side s.turn) .King s.turn
      let pcs := pcs.insertUnchecked (s.castle.rookTarget side s.turn) .Rook s.turn
      { n with pieces := pcs, enPassant := none, halfmoves := 0 }
    | none =>
      let pcs := n.pieces.remove src s.wormholes
      let pcs :=
        if DeltaFlags.contains flags DeltaFlags.IS_CAPTURE then
          match s.enPassant with
          | some epSq =>
            if DeltaFlags.contains flags DeltaFlags.IS_EN_PASSANT then
              pcs.remove epSq s.wormholes
            else
              pcs.remove dst s.wormholes
          | none => pcs.remove dst s.wormholes
        else pcs
      let ep :=
        if DeltaFlags.contains flags DeltaFlags.IS_DOUBLE_PUSH then
          if BitBoard.hasSq s.wormholes dst then
            some (src.addDelta (s.turn.pawnDir, 0))
          else
            some (dst.addDelta (-s.turn.pawnDir, 0))
        else n.enPassant
      let pcs :=
        match delta.getPromotePc with
        | some promotion => pcs.insertUnchecked dst promotion s.turn
        | none =>
          match movedPiece with
          | some pc => pcs.insertUnchecked dst pc s.turn
          | none => pcs
      let hm := if DeltaFlags.contains flags DeltaFlags.RESET_HALFMOVES then 0 else n.halfmoves + 1
      { n with pieces := pcs, enPassant := ep, halfmoves := hm }
  let n := if s.turn = Team.Black then { n with fullmoves := n.fullmoves + 1 } else n
  let n := { n with castle := { n.castle with rights := delta.getCastleRights } }
  let n :=
    match delta.getHoleSquare with
    | some hole =>
      if DeltaFlags.contains flags DeltaFlags.HOLE_PUSHED then
        { n with nextHole := some hole }
      else if DeltaFlags.contains flags DeltaFlags.HOLE_POPPED then
        { n with nextHole := none, wormholes := n.wormholes ||| hole.toMask }
      else if DeltaFlags.contains flags DeltaFlags.HOLE_WILL_POP then
        { n with holeIn1 := true }
      else n
    | none => n
  { n with turn := s.turn.tnot }

/-- `BoardState::prev`: undo a delta. -/
def prev (s : BoardState) (delta : BoardDelta) : BoardState :=
  let p := s
  let turn := p.turn.tnot
  let flags := delta.getFlags
  let src := delta.getSrcSq
  let dst := delta.getDstSq
  let movedPiece := p.pieces.pieceAtOrOnHole dst p.wormholes
  let p :=
    match delta.getHoleSquare with
    | some hole =>
      if DeltaFlags.contains flags DeltaFlags.HOLE_PUSHED then
        { p with nextHole := none }
      else if DeltaFlags.contains flags DeltaFlags.HOLE_POPPED then
        { p with nextHole := some hole, holeIn1 := true,
                 wormholes := p.wormholes &&& bnot hole.toMask }
      else p
    | none => p
  let p :=
    match delta.castleSide with
    | some side =>
      let pcs := p.pieces.remove (p.castle.kingTarget side turn) 0
      let pcs := pcs.remove (p.castle.rookTarget side turn) 0
      let pcs := pcs.insertUnchecked (p.castle.kingStart turn) .King turn
      let pcs := pcs.insertUnchecked (p.castle.rookStart side turn) .Rook turn
      { p with pieces := pcs }
    | none =>
      let pcs := p.pieces.remove dst s.wormholes
      let pcs :=
        match delta.getCapturePc with
        | some capturePc =>
          if DeltaFlags.contains flags DeltaFlags.IS_EN_PASSANT then
            match delta.getPrevEpSq with
            | some epSq => pcs.insertUnchecked epSq capturePc s.turn
            | none => pcs
          else
            pcs.insertUnchecked dst capturePc s.turn
        | none => pcs
      let pcs :=
        if (delta.getPromotePc).isSome then
          pcs.insertUnchecked src .Pawn turn
        else
          match movedPiece with
          | some pc => pcs.insertUnchecked src pc turn
          | none => pcs
      { p with pieces := pcs }
  let p := { p with enPassant := delta.getPrevEpSq, halfmoves := delta.getPrevHalfmoves,
                    turn := turn }
  if turn = Team.Black then { p with fullmoves := p.fullmoves - 1 } else p

/-- `Default for BoardState`. -/
def default : BoardState where
  enPassant := none
  nextHole := none
  holeIn1 := false
  wormholes := 0
  fullmoves := 1
  halfmoves := 0
  pieces := Pieces.default
  castle := CastleRights.default
  turn := Team.White

end BoardState

-- ## defense.rs

/-- `defense.rs pawn_defense`'s inner shift computation. -/
def pawnDefenseCompute (team : Team) (p : Nat) : Nat :=
  match team with
  | .White => BitBoard.pawnCapturesWhite p
  | .Black => BitBoard.pawnCapturesBlack p

/-- `defense.rs pawn_defense`. -/
def pawnDefense (team : Team) (pieces holes : Nat) : Nat :=
  if BitBoard.intersects pieces holes then
    pawnDefenseCompute team (pieces &&& bnot holes) |||
      (pawnDefenseCompute team (pieces &&& holes) &&& bnot holes)
  else
    pawnDefenseCompute team pieces

/-- `defense.rs knight_defense`. -/
def knightDefense (pieces holes : Nat) : Nat :=
  let compute := fun (pcs : Nat) =>
    (BitBoard.squaresOf pcs).foldl (fun mask sq => mask ||| KNIGHT_MOVES sq) 0
  if BitBoard.intersects pieces holes then
    compute (pieces &&& bnot holes) ||| (compute holes &&& bnot holes)
  else
    compute pieces

/-- `defense.rs king_defense`. -/
def kingDefense (pieces holes : Nat) : Nat :=
  let compute := fun (pcs : Nat) =>
    (BitBoard.squaresOf pcs).foldl (fun mask sq => mask ||| KING_MOVES sq) 0
  if BitBoard.intersects pieces holes then
    compute (pieces &&& bnot holes) ||| (compute holes &&& bnot holes)
  else
    compute pieces

/-- `defense.rs ray`: squares a sliding piece defends on one ray,
wormhole-chained. -/
def defenseRay (src : Square) (d : Ray) (occupied holes : Nat) : Nat :=
  if BitBoard.hasSq holes src then
    ((BitBoard.squaresOf holes).foldl
      (fun mask outSq => mask ||| Ray.cast d outSq (BitBoard.without occupied outSq)) 0) &&&
      bnot holes
  else
    let ray := Ray.cast d src (BitBoard.without occupied src)
    if BitBoard.intersects holes ray then
      BitBoard.without
        ((BitBoard.squaresOf (holes &&& bnot ray)).foldl
          (fun ray outSq => ray ||| Ray.cast d outSq occupied) ray)
        src
    else
      ray

/-- `defense.rs rook_defense`. -/
def rookDefense (pieces holes occupied : Nat) : Nat :=
  (BitBoard.squaresOf pieces).foldl
    (fun mask src =>
      mask ||| defenseRay src .PosZero occupied holes |||
        defenseRay src .NegZero occupied holes |||
        defenseRay src .ZeroPos occupied holes |||
        defenseRay src .ZeroNeg occupied holes) 0

/-- `defense.rs bishop_defense`. -/
def bishopDefense (pieces holes occupied : Nat) : Nat :=
  (BitBoard.squaresOf pieces).foldl
    (fun mask src =>
      mask ||| defenseRay src .PosPos occupied holes |||
        defenseRay src .NegNeg occupied holes |||
        defenseRay src .PosNeg occupied holes |||
        defenseRay src .NegPos occupied holes) 0

/-- `defense.rs defense`: squares attacked by the side not to move, with
the moving side's king removed from the ray occupancy. -/
def defense (state : BoardState) : Nat :=
  let team := state.turn.tnot
  let holes := state.wormholes
  let king := state.pieces.get .King state.turn
  let occupied0 := state.pieces.occupied &&& bnot king
  let occupied := if BitBoard.intersects holes occupied0 then occupied0 ||| holes else occupied0
  let d := 0 |||
    pawnDefense team (state.pieces.get .Pawn team) holes |||
    kingDefense (state.pieces.get .King team) holes |||
    knightDefense (state.pieces.get .Knight team) holes |||
    bishopDefense (state.pieces.all [.Queen, .Bishop] team) holes occupied |||
    rookDefense (state.pieces.all [.Queen, .Rook] team) holes occupied
  if BitBoard.intersects holes d then d ||| holes else d

-- ## blockable.rs

/-- The `match rel.count()` step shared by `blockable.rs direct`. -/
def directStep (b rel : Nat) : Nat :=
  match BitBoard.count rel with
  | 0 => b
  | 1 => b &&& rel
  | _ => 0

/-- `blockable.rs direct`: constraints from non-sliding attackers. -/
def blockableDirect (b : Nat) (table : Square → Nat) (relevant holes : Nat)
    (king : Square) : Nat :=
  if BitBoard.hasSq holes king then
    (BitBoard.squaresOf holes).foldl
      (fun b outSq => directStep b (relevant &&& table outSq)) b
  else
    let mvs := table king
    let rel := mvs &&& relevant
    let b := directStep b rel
    if BitBoard.intersects mvs holes && BitBoard.intersects relevant holes then
      b &&& holes
    else b

/-- `blockable.rs ray`: constraints from sliding attackers on one direction. -/
def blockableRay (b occupied relevant0 : Nat) (d : Ray) (piece : Square)
    (holes : Nat) (king : Square) : Nat :=
  let canBlock := occupied &&& bnot relevant0
  let relevant := if BitBoard.intersects holes relevant0 then relevant0 ||| holes else relevant0
  if BitBoard.hasSq holes king then
    (BitBoard.squaresOf holes).foldl
      (fun b outSq =>
        let ray := Ray.cast d outSq relevant
        if BitBoard.intersects ray relevant then
          let blocking := BitBoard.count (canBlock &&& ray)
          if blocking == 0 || (blocking == 1 && BitBoard.hasSq ray piece) then
            b &&& ray
          else b
        else b) b
  else
    let ray := Ray.cast d king relevant
    let b :=
      if BitBoard.intersects ray relevant then
        let blocking := BitBoard.count (canBlock &&& ray)
        if blocking == 0 || (blocking == 1 && BitBoard.hasSq ray piece) then
          b &&& ray
        else b
      else b
    if BitBoard.intersects holes (ray &&& bnot relevant) then
      let toInSq := Ray.cast d king holes
      let blocking := BitBoard.count (canBlock &&& toInSq)
      if blocking == 0 || (blocking == 1 && BitBoard.hasSq toInSq piece) then
        (BitBoard.squaresOf (holes &&& bnot toInSq)).foldl
          (fun b outSq =>
            let fromOutSq := Ray.cast d outSq relevant
            if BitBoard.intersects ray relevant then
              let blocking2 := blocking + BitBoard.count (canBlock &&& fromOutSq)
              let squares := toInSq ||| fromOutSq
              if blocking2 == 0 || (blocking2 == 1 && BitBoard.hasSq squares piece) then
                b &&& squares
              else b
            else b) b
      else b
    else b

/-- `blockable.rs blockable`: the squares a piece may move to while
resolving checks and preserving pins; all-ones when unconstrained. -/
def blockable (state : BoardState) (pc : Square) : Nat :=
  match BitBoard.first (state.pieces.get .King state.turn) with
  | none => U64MAX
  | some king =>
    let team := state.turn.tnot
    let holes := state.wormholes
    let occupied0 := BitBoard.without state.pieces.occupied king
    let occupied := if BitBoard.intersects occupied0 holes then occupied0 ||| holes else occupied0
    let b := U64MAX
    let b := blockableDirect b KNIGHT_MOVES (state.pieces.get .Knight team) holes king
    let b := blockableDirect b KING_MOVES (state.pieces.get .King team) holes king
    let diag := state.pieces.all [.Queen, .Bishop] team
    let b := blockableRay b occupied diag .PosPos pc holes king
    let b := blockableRay b occupied diag .NegNeg pc holes king
    let b := blockableRay b occupied diag .PosNeg pc holes king
    let b := blockableRay b occupied diag .NegPos pc holes king
    let ortho := state.pieces.all [.Queen, .Rook] team
    let b := blockableRay b occupied ortho .PosZero pc holes king
    let b := blockableRay b occupied ortho .NegZero pc holes king
    let b := blockableRay b occupied ortho .ZeroPos pc holes king
    let b := blockableRay b occupied ortho .ZeroNeg pc holes king
    match state.turn with
    | .White => blockableDirect b WHITE_PAWN_ATTACKS (state.pieces.get .Pawn team) holes king
    | .Black => blockableDirect b BLACK_PAWN_ATTACKS (state.pieces.get .Pawn team) holes king

-- ## compute.rs (compute2, the authoritative per-square move generator)

/-- `compute.rs compute2`: the legal-destination mask for the piece on a
square. Its Rust body calls `blockable(sq, state, relevant)`; the only
`blockable` definition in the source is the two-argument one of
`blockable.rs`, so that is what the call resolves to here and `relevant`
is carried but unused. -/
def compute2 (state : BoardState) (sq : Square) (defenseArg : Option Nat)
    (_relevant : Nat) : Nat :=
  let wormholes := state.wormholes
  let occupied := BitBoard.transmit state.pieces.occupied wormholes
  let turn := state.turn
  let friendly := state.pieces.onTeam turn
  let moves : Nat :=
    match state.pieces.pieceAtOrOnHole sq wormholes with
    | none => 0
    | some pc =>
      match pc with
      | .King =>
        let defense0 := defenseArg.getD (defense state)
        let moves :=
          if BitBoard.hasSq wormholes sq then
            (BitBoard.squaresOf wormholes).foldl
              (fun moves outSq => moves ||| (outSq.kingMoves &&& bnot wormholes)) 0
          else
            sq.kingMoves
        let moves := moves &&& bnot (friendly ||| defense0)
        [Castle.Long, Castle.Short].foldl
          (fun moves side =>
            if canCastle side turn state.castle defense0 occupied sq then
              moves ||| (state.castle.rookStart side turn).toMask |||
                (state.castle.kingTarget side turn).toMask
            else moves) moves
      | .Queen =>
        let moves :=
          if BitBoard.hasSq wormholes sq then
            ((BitBoard.squaresOf wormholes).foldl
              (fun moves outSq =>
                moves ||| outSq.bishopMoves occupied ||| outSq.rookMoves occupied) 0) &&&
              bnot wormholes
          else
            let moves := sq.bishopMoves occupied ||| sq.rookMoves occupied
            (BitBoard.squaresOf ((moves &&& bnot occupied) &&& wormholes)).foldl
              (fun moves inSq =>
                match sq.ray inSq with
                | some ray =>
                  (BitBoard.squaresOf wormholes).foldl
                    (fun moves outSq => moves ||| ray.cast outSq occupied) moves
                | none => moves) moves
        moves &&& (bnot friendly ||| blockable state sq)
      | .Bishop =>
        let moves :=
          if BitBoard.hasSq wormholes sq then
            (BitBoard.squaresOf wormholes).foldl
              (fun moves outSq => moves ||| (outSq.bishopMoves occupied &&& bnot wormholes)) 0
          else
            let moves := 0 ||| sq.bishopMoves occupied
            (BitBoard.squaresOf ((moves &&& bnot occupied) &&& wormholes)).foldl
              (fun moves inSq =>
                match sq.diagRay inSq with
                | some ray =>
                  (BitBoard.squaresOf wormholes).foldl
                    (fun moves outSq => moves ||| ray.cast outSq occupied) moves
                | none => moves) moves
        moves &&& (bnot friendly ||| blockable state sq)
      | .Knight =>
        let moves :=
          if BitBoard.hasSq wormholes sq then
            (BitBoard.squaresOf wormholes).foldl
              (fun moves outSq => moves ||| (outSq.knightMoves &&& bnot wormholes)) 0
          else
            0 ||| sq.knightMoves
        moves &&& (bnot friendly ||| blockable state sq)
      | .Pawn =>
        let pawnRank := BitBoard.withRankU8 0 turn.pawnRankU8
        let delta := (turn.pawnDir, (0 : Int))
        let capturesMoves :=
          if BitBoard.hasSq wormholes sq then
            let isPawnRank := BitBoard.intersects pawnRank wormholes
            (BitBoard.squaresOf wormholes).foldl
              (fun cm outSq =>
                let captures := cm.1 ||| outSq.pawnCaptures turn
                let moves :=
                  match outSq.next delta with
                  | some one =>
                    if !(BitBoard.hasSq occupied one) then
                      let moves := cm.2 ||| one.toMask
                      match one.next delta with
                      | some two => if isPawnRank then moves ||| two.toMask else moves
                      | none => moves
                    else cm.2
                  | none => cm.2
                (captures, moves)) ((0 : Nat), (0 : Nat))
          else
            let isPawnRank := BitBoard.hasSq pawnRank sq
            let captures := 0 ||| sq.pawnCaptures turn
            let moves :=
              match sq.next delta with
              | some one =>
                if !(BitBoard.hasSq occupied one) then
                  let moves := 0 ||| one.toMask
                  if isPawnRank then
                    if BitBoard.hasSq wormholes one then
                      (BitBoard.squaresOf wormholes).foldl
                        (fun moves outSq =>
                          match outSq.next delta with
                          | some two =>
                            if !(BitBoard.hasSq occupied two) then moves ||| two.toMask
                            else moves
                          | none => moves) moves
                    else
                      match one.next delta with
                      | some two =>
                        if !(BitBoard.hasSq occupied two) then moves ||| two.toMask else moves
                      | none => moves
                  else moves
                else 0
              | none => 0
            (captures, moves)
        let captures := capturesMoves.1
        let moves := capturesMoves.2
        let epTx :=
          match state.enPassant with
          | some epSq => BitBoard.transmit epSq.toMask wormholes
          | none => 0
        let enemy := BitBoard.transmit (state.pieces.onTeam state.turn.tnot) wormholes
        moves ||| ((captures &&& (epTx ||| enemy)) &&& blockable state sq)
      | .Rook =>
        let moves :=
          if BitBoard.hasSq wormholes sq then
            (BitBoard.squaresOf wormholes).foldl
              (fun moves outSq => moves ||| (outSq.rookMoves occupied &&& bnot wormholes)) 0
          else
            let moves := 0 ||| sq.bishopMoves occupied
            (BitBoard.squaresOf ((moves &&& bnot occupied) &&& wormholes)).foldl
              (fun moves inSq =>
                match sq.orthoRay inSq with
                | some ray =>
                  (BitBoard.squaresOf wormholes).foldl
                    (fun moves outSq => moves ||| ray.cast outSq occupied) moves
                | none => moves) moves
        let blockable0 := blockable state sq
        let moves := moves &&& (bnot friendly ||| blockable0)
        if blockable0 != U64MAX then
          [Castle.Short, Castle.Long].foldl
            (fun moves side =>
              if sq = state.castle.rookStart side turn then
                (BitBoard.squaresOf (state.pieces.get .King turn)).foldl
                  (fun moves king =>
                    let defense0 := defenseArg.getD (defense state)
                    if canCastle side turn state.castle defense0 occupied king then
                      moves ||| king.toMask
                    else moves) moves
              else moves) moves
        else moves
  BitBoard.transmit moves wormholes

-- ## trace.rs

/-- `MoveTrace` from `trace.rs`. -/
structure MoveTrace where
  route : Option (Square × Square)
  captures : Option Piece
  isCaptureEnPassant : Option Square
  allowsEnPassant : Option Square
  requiresPromotion : Bool
  isKingMove : Bool
  isCastle : Option Castle
  losesCastle : Option Castle
  takesCastle : Option Castle
deriving DecidableEq, Repr

/-- `Default for MoveTrace`. -/
def MoveTrace.default : MoveTrace where
  route := none
  captures := none
  isCaptureEnPassant := none
  allowsEnPassant := none
  requiresPromotion := false
  isKingMove := false
  isCastle := none
  losesCastle := none
  takesCastle := none

/-- Modelled from the spec: `BitBoard::from(Rank)` is used by `trace`'s
promotion test but the impl is absent from `board.rs`; it is the mask of
that rank's squares. -/
def rankMask (rank : Nat) : Nat := BitBoard.withRankU8 0 rank

/-- `trace.rs trace`: re-derive legality and effects for one (src, dst)
pair. Its Rust body calls `blockable(src, state)`, which resolves to the
`blockable.rs` definition. -/
def trace (state : BoardState) (src dst : Square) (defenseArg : Option Nat) :
    Option MoveTrace :=
  if !(BitBoard.hasSq (state.pieces.onTeam state.turn) src) then none
  else
    let wormholes := state.wormholes
    match state.pieces.pieceAtOrOnHole src wormholes with
    | none => none
    | some pc =>
      let friendly := state.pieces.onTeam state.turn
      let dsts := BitBoard.transmit dst.toMask wormholes
      let srcs := BitBoard.transmit src.toMask wormholes
      let turn := state.turn
      let occupied := BitBoard.transmit state.pieces.occupied wormholes
      let holesAreOcc := BitBoard.intersects occupied wormholes
      let captures := state.pieces.pieceAtOrOnHole dst wormholes
      let losesCastle := state.castle.moveLosesCastle srcs turn
      let takesCastle := state.castle.captureTakesCastle dsts turn.tnot
      match pc with
      | .King =>
        let defense0 := defenseArg.getD (defense state)
        let castleRes : Option MoveTrace :=
          if dst.rankU8 = turn.backRankU8 ∧ src.rankU8 = turn.backRankU8 then
            [Castle.Long, Castle.Short].findSome? fun side =>
              if src = state.castle.kingStart turn then
                if canCastle side turn state.castle defense0 occupied src ∧
                    (dst = state.castle.rookTarget side turn ∨
                     dst = state.castle.kingTarget side turn) then
                  some { MoveTrace.default with isKingMove := true, isCastle := some side }
                else none
              else none
          else none
        match castleRes with
        | some t => some t
        | none =>
          if BitBoard.hasSq wormholes src then
            (BitBoard.squaresOf wormholes).findSome? fun outSq =>
              let mv := outSq.kingMoves &&& bnot (friendly ||| defense0 ||| wormholes)
              if BitBoard.hasSq mv dst then
                some { MoveTrace.default with
                        route := if outSq ≠ src then some (src, outSq) else none,
                        isKingMove := true }
              else none
          else
            let mv := src.kingMoves &&& bnot (friendly ||| defense0)
            if BitBoard.intersects mv dsts then
              some { MoveTrace.default with isKingMove := true }
            else none
      | .Knight =>
        let blockable0 := blockable state src
        if BitBoard.hasSq wormholes src then
          (BitBoard.squaresOf wormholes).findSome? fun outSq =>
            if BitBoard.intersects ((outSq.knightMoves &&& bnot friendly) &&& blockable0) dsts then
              some { MoveTrace.default with
                      route := if outSq ≠ src then some (src, outSq) else none,
                      takesCastle := takesCastle, captures := captures }
            else none
        else
          if BitBoard.intersects ((src.knightMoves &&& bnot friendly) &&& blockable0) dsts then
            some { MoveTrace.default with takesCastle := takesCastle, captures := captures }
          else none
      | .Bishop =>
        let blockable0 := blockable state src
        if BitBoard.hasSq wormholes src then
          (BitBoard.squaresOf wormholes).findSome? fun outSq =>
            let diag := (outSq.bishopMoves occupied &&& blockable0) &&& bnot friendly
            if BitBoard.hasSq diag dst then
              some { MoveTrace.default with
                      route := if src ≠ outSq then some (src, outSq) else none,
                      captures := captures, takesCastle := takesCastle }
            else none
        else
          let moves := src.bishopMoves occupied
          if BitBoard.intersects ((moves &&& bnot friendly) &&& blockable0) dsts then
            some { MoveTrace.default with takesCastle := takesCastle, captures := captures }
          else
            if !holesAreOcc then
              (BitBoard.squaresOf (moves &&& wormholes)).findSome? fun inSq =>
                match src.diagRay inSq with
                | some ray =>
                  (BitBoard.squaresOf wormholes).findSome? fun outSq =>
                    if BitBoard.intersects
                        ((ray.cast outSq occupied &&& bnot friendly) &&& blockable0) dsts then
                      some { MoveTrace.default with
                              route := some (inSq, outSq),
                              takesCastle := takesCastle, captures := captures }
                    else none
                | none => none
            else none
      | .Rook =>
        let blockable0 := blockable state src
        let kingSq := state.castle.kingStart turn
        if BitBoard.hasSq dsts kingSq ∧ BitBoard.hasSq (state.pieces.get .King turn) kingSq then
          if blockable0 = U64MAX then
            [Castle.Long, Castle.Short].findSome? fun side =>
              if src = state.castle.rookStart side turn then
                let defense0 := defenseArg.getD (defense state)
                if canCastle side turn state.castle defense0 occupied kingSq then
                  some { MoveTrace.default with isCastle := some side, isKingMove := true }
                else none
              else none
          else none
        else
          if BitBoard.hasSq wormholes src then
            (BitBoard.squaresOf wormholes).findSome? fun outSq =>
              let ortho := (outSq.rookMoves occupied &&& bnot friendly) &&& blockable0
              if BitBoard.hasSq ortho dst then
                some { MoveTrace.default with
                        route := if src ≠ outSq then some (src, outSq) else none,
                        captures := captures, takesCastle := takesCastle,
                        losesCastle := losesCastle }
              else none
          else
            let moves := src.rookMoves occupied
            if BitBoard.intersects ((moves &&& bnot friendly) &&& blockable0) dsts then
              some { MoveTrace.default with
                      captures := captures, takesCastle := takesCastle,
                      losesCastle := losesCastle }
            else
              if !holesAreOcc then
                (BitBoard.squaresOf (moves &&& wormholes)).findSome? fun inSq =>
                  match src.orthoRay inSq with
                  | some ray =>
                    (BitBoard.squaresOf wormholes).findSome? fun outSq =>
                      if BitBoard.hasSq
                          ((ray.cast outSq occupied &&& bnot friendly) &&& blockable0) dst then
                        some { MoveTrace.default with
                                route := some (inSq, outSq),
                                captures := captures, takesCastle := takesCastle,
                                losesCastle := losesCastle }
                      else none
                  | none => none
              else none
      | .Queen =>
        let blockable0 := blockable state src
        let takeable := bnot friendly ||| blockable0
        if BitBoard.hasSq wormholes src then
          (BitBoard.squaresOf wormholes).findSome? fun outSq =>
            if BitBoard.hasSq
                ((outSq.rookMoves occupied ||| outSq.bishopMoves occupied) &&& takeable) dst then
              some { MoveTrace.default with
                      route := if outSq ≠ src then some (src, outSq) else none,
                      captures := captures, takesCastle := takesCastle }
            else none
        else
          let moves := src.rookMoves occupied ||| src.bishopMoves occupied
          if BitBoard.intersects (moves &&& takeable) dsts then
            some { MoveTrace.default with captures := captures, takesCastle := takesCastle }
          else
            if !holesAreOcc then
              (BitBoard.squaresOf (moves &&& wormholes)).findSome? fun inSq =>
                match src.ray inSq with
                | some ray =>
                  (BitBoard.squaresOf wormholes).findSome? fun outSq =>
                    if BitBoard.hasSq (ray.cast outSq occupied &&& takeable) dst then
                      some { MoveTrace.default with
                              route := some (inSq, outSq),
                              captures := captures, takesCastle := takesCastle }
                    else none
                | none => none
            else none
      | .Pawn =>
        let delta := (turn.pawnDir, (0 : Int))
        let blockable0 := blockable state src
        let epTx :=
          match state.enPassant with
          | some epSq => BitBoard.transmit epSq.toMask wormholes
          | none => 0
        let takeable :=
          BitBoard.transmit (state.pieces.onTeam state.turn.tnot ||| epTx) wormholes &&&
            blockable0
        let requiresPromotion := BitBoard.intersects dsts (rankMask turn.tnot.backRankU8)
        if BitBoard.hasSq wormholes src then
          let isPawnRank := BitBoard.intersects (rankMask turn.pawnRankU8) wormholes
          (BitBoard.squaresOf wormholes).findSome? fun outSq =>
            if BitBoard.hasSq (outSq.pawnCaptures turn &&& takeable) dst then
              match state.enPassant with
              | some epSq =>
                if dst = epSq then
                  some { MoveTrace.default with
                          route := if src ≠ outSq then some (src, outSq) else none,
                          captures := captures, takesCastle := takesCastle,
                          isCaptureEnPassant := some epSq,
                          requiresPromotion := requiresPromotion }
                else
                  some { MoveTrace.default with
                          route := if src ≠ outSq then some (src, outSq) else none,
                          captures := captures, takesCastle := takesCastle,
                          requiresPromotion := requiresPromotion }
              | none =>
                some { MoveTrace.default with
                        route := if src ≠ outSq then some (src, outSq) else none,
                        captures := captures, takesCastle := takesCastle,
                        requiresPromotion := requiresPromotion }
            else
              match outSq.next delta with
              | some one =>
                if !(BitBoard.hasSq occupied one) then
                  if BitBoard.hasSq blockable0 one ∧ one = dst then
                    some { MoveTrace.default with
                            route := if src ≠ outSq then some (src, outSq) else none,
                            requiresPromotion := requiresPromotion }
                  else
                    match outSq.next delta with
                    | some two =>
                      if isPawnRank ∧ !(BitBoard.hasSq occupied two) then
                        if BitBoard.hasSq blockable0 two ∧ two = dst then
                          some { MoveTrace.default with
                                  route := if src ≠ outSq then some (src, outSq) else none,
                                  requiresPromotion := requiresPromotion,
                                  allowsEnPassant := some one }
                        else none
                      else none
                    | none => none
                else none
              | none => none
        else
          if BitBoard.intersects (src.pawnCaptures turn &&& takeable) dsts then
            match state.enPassant with
            | some epSq =>
              if dst = epSq then
                some { MoveTrace.default with
                        captures := captures, isCaptureEnPassant := some epSq,
                        takesCastle := takesCastle, requiresPromotion := requiresPromotion }
              else
                some { MoveTrace.default with
                        captures := captures, takesCastle := takesCastle,
                        requiresPromotion := requiresPromotion }
            | none =>
              some { MoveTrace.default with
                      captures := captures, takesCastle := takesCastle,
                      requiresPromotion := requiresPromotion }
          else
            let isPawnRank := src.rankU8 = turn.pawnRankU8
            match src.next delta with
            | some one =>
              if !(BitBoard.hasSq occupied one) then
                if BitBoard.hasSq blockable0 one ∧ one = dst then
                  some { MoveTrace.default with
                          requiresPromotion := requiresPromotion,
                          takesCastle := takesCastle }
                else
                  if isPawnRank then
                    if BitBoard.hasSq wormholes one then
                      (BitBoard.squaresOf wormholes).findSome? fun outSq =>
                        match outSq.next delta with
                        | some two =>
                          if !(BitBoard.hasSq occupied two) ∧ BitBoard.hasSq blockable0 two then
                            some { MoveTrace.default with
                                    route := if one ≠ outSq then some (one, outSq) else none,
                                    allowsEnPassant := some one,
                                    requiresPromotion := requiresPromotion }
                          else none
                        | none => none
                    else
                      match one.next delta with
                      | some two =>
                        if !(BitBoard.hasSq occupied two) ∧ BitBoard.hasSq blockable0 two then
                          some { MoveTrace.default with
                                  allowsEnPassant := some one,
                                  requiresPromotion := requiresPromotion }
                        else none
                      | none => none
                  else none
              else none
            | none => none

-- ## rng.rs and init.rs

/-- `WyRand` from `rng.rs`. -/
structure WyRand where
  seed : Nat
deriving DecidableEq, Repr

namespace WyRand

/-- `WyRand::next`: returns the updated generator and the drawn value. -/
def next (r : WyRand) : WyRand × Nat :=
  let P0 := 0xa0761d6478bd642f
  let P1 := 0xe7037ed1a0b428db
  let seed := (r.seed + P0) &&& U64MAX
  let rr := seed * (seed ^^^ P1)
  (⟨seed⟩, ((rr >>> 64) ^^^ rr) &&& U64MAX)

/-- `WyRand::range` over `start..end_`. -/
def range (r : WyRand) (start end_ : Nat) : WyRand × Nat :=
  let (r, v) := r.next
  (r, v % (end_ - start) + start)

end WyRand

/-- Swap two positions of a list (Rust `slice::swap`). -/
def listSwap (l : List Nat) (i j : Nat) : List Nat :=
  let a := l.getD i 0
  let b := l.getD j 0
  (l.set i b).set j a

/-- `WyRand::shuffle` for a list. -/
def WyRand.shuffle (r : WyRand) (l : List Nat) : WyRand × List Nat :=
  (List.range l.length).foldl
    (fun st i =>
      let (r, j) := WyRand.range st.1 i l.length
      (r, listSwap st.2 i j)) (r, l)

/-- The bishop fix-up loop of `init.rs` (`for i in 0..7` with early break),
comparing the parities of `indices[5]` and `indices[6]`. -/
def bishopFixGo : List Nat → List Nat → List Nat
  | idx, [] => idx
  | idx, i :: rest =>
    if idx.getD 5 0 &&& 1 = idx.getD 6 0 &&& 1 then
      bishopFixGo (listSwap idx i 5) rest
    else idx

/-- `init.rs init_chess960`. -/
def initChess960 (rng : WyRand) : BoardState :=
  let indices := (rng.shuffle [0, 1, 2, 3, 4, 5, 6, 7]).2
  let indices := bishopFixGo indices (List.range 7)
  let indices := if indices.getD 0 0 > indices.getD 1 0 then listSwap indices 0 1 else indices
  let indices := if indices.getD 1 0 > indices.getD 2 0 then listSwap indices 1 2 else indices
  let pieces := Pieces.justPawns
  let pieces := pieces.setupFromFile .Rook (indices.getD 0 0)
  let pieces := pieces.setupFromFile .King (indices.getD 1 0)
  let pieces := pieces.setupFromFile .Rook (indices.getD 2 0)
  let pieces := pieces.setupFromFile .Queen (indices.getD 3 0)
  let pieces := pieces.setupFromFile .Knight (indices.getD 4 0)
  let pieces := pieces.setupFromFile .Knight (indices.getD 5 0)
  let pieces := pieces.setupFromFile .Bishop (indices.getD 6 0)
  let pieces := pieces.setupFromFile .Bishop (indices.getD 7 0)
  let castle := CastleRights.default
  let castle := castle.setRook .Long (indices.getD 0 0)
  let castle := castle.setRook .Short (indices.getD 2 0)
  let castle := castle.setKing (indices.getD 1 0)
  { enPassant := none
    nextHole := none
    holeIn1 := false
    wormholes := 0
    fullmoves := 1
    halfmoves := 0
    pieces := pieces
    castle := castle
    turn := Team.White }

-- ## Concrete positions used by the claim theorems

/-- White rooks a1, h1, king e1; black king e8; White to move; full rights. -/
def stateKingMove : BoardState :=
  { BoardState.default with
      pieces :=
        { bishops := 0, knights := 0, queens := 0, pawns := 0
          kings := (1 <<< 4) ||| (1 <<< 60)
          rooks := 1 ||| (1 <<< 7)
          white := 1 ||| (1 <<< 4) ||| (1 <<< 7)
          black := 1 <<< 60 } }

/-- The delta `ChessGame::play` builds for the legal king move e1-e2 in
`stateKingMove`: source e1, destination e2, resulting rights `0b1100`
(both White rights lost), no capture, no previous en-passant square,
previous halfmove count 0. -/
def deltaKingMove : BoardDelta :=
  ((((((BoardDelta.mk 0).setSrcSq ⟨4⟩).setDstSq ⟨12⟩).setCastleRights
      0b1100).setCapturePc none).setPrevEpSq none).setPrevHalfmoves 0

/-- White rook a1, king e1; black king e8; White to move; full rights. -/
def stateRook : BoardState :=
  { BoardState.default with
      pieces :=
        { bishops := 0, knights := 0, queens := 0, pawns := 0
          kings := (1 <<< 4) ||| (1 <<< 60)
          rooks := 1
          white := 1 ||| (1 <<< 4)
          black := 1 <<< 60 } }

/-- White king e1, black rook e8, nothing else; White to move. -/
def stateRookFile : BoardState :=
  { BoardState.default with
      pieces :=
        { bishops := 0, knights := 0, queens := 0, pawns := 0
          kings := 1 <<< 4
          rooks := 1 <<< 60
          white := 1 <<< 4
          black := 1 <<< 60 } }

/-- White king e4, black rook e8, nothing else; White to move. -/
def stateRookFileKingE4 : BoardState :=
  { BoardState.default with
      pieces :=
        { bishops := 0, knights := 0, queens := 0, pawns := 0
          kings := 1 <<< 28
          rooks := 1 <<< 60
          white := 1 <<< 28
          black := 1 <<< 60 } }

/-- White king e1 and rook e4, black queen e8: the rook is pinned on the
e-file; White to move. -/
def statePin : BoardState :=
  { BoardState.default with
      pieces :=
        { bishops := 0, knights := 0, pawns := 0
          queens := 1 <<< 60
          kings := 1 <<< 4
          rooks := 1 <<< 28
          white := (1 <<< 4) ||| (1 <<< 28)
          black := 1 <<< 60 } }

/-- `statePin` plus a black knight on d3 giving check; White to move. -/
def statePinPlusCheck : BoardState :=
  { BoardState.default with
      pieces :=
        { bishops := 0, pawns := 0
          knights := 1 <<< 19
          queens := 1 <<< 60
          kings := 1 <<< 4
          rooks := 1 <<< 28
          white := (1 <<< 4) ||| (1 <<< 28)
          black := (1 <<< 60) ||| (1 <<< 19) } }

/-- White king g3; Black king a8 and pawn a5; live wormholes a5 and g5;
no castle rights; White to move. -/
def stateHolePawnKg3 : BoardState :=
  { BoardState.default with
      wormholes := (1 <<< 32) ||| (1 <<< 38)
      castle := { rights := 0, settings := CastleSettings.default }
      pieces :=
        { bishops := 0, knights := 0, queens := 0, rooks := 0
          pawns := 1 <<< 32
          kings := (1 <<< 22) ||| (1 <<< 56)
          white := 1 <<< 22
          black := (1 <<< 32) ||| (1 <<< 56) } }

/-- `stateHolePawnKg3` after the king move g3-f4: White king f4, Black to
move. -/
def stateHolePawnKf4 : BoardState :=
  { stateHolePawnKg3 with
      turn := Team.Black
      pieces := { stateHolePawnKg3.pieces with
                    kings := (1 <<< 29) ||| (1 <<< 56)
                    white := 1 <<< 29 } }

-- ## Specification-side notions used by the claim statements

/-- Travel order along a ray direction: `u` comes strictly before `t`
(ascending directions travel upward in square index, descending ones
downward). -/
def rayBefore (d : Ray) (u t : Nat) : Prop :=
  if d.ascending then u < t else t < u

/-- Mask containment: every square of `x` is a square of `y`. -/
def bbSub (x y : Nat) : Prop := x &&& y = x

/-- The enemy slider set `blockable` pairs with a ray direction: queens and
bishops on the diagonals, queens and rooks on the orthogonals. -/
def sliderRelevant (state : BoardState) (d : Ray) : Nat :=
  match d with
  | .PosPos | .NegNeg | .PosNeg | .NegPos => state.pieces.all [.Queen, .Bishop] state.turn.tnot
  | .PosZero | .NegZero | .ZeroPos | .ZeroNeg => state.pieces.all [.Queen, .Rook] state.turn.tnot

/-- The occupancy `blockable` works with: everything except the moving
side's king, wormhole-expanded. -/
def blockOccupied (state : BoardState) (k : Square) : Nat :=
  let occupied0 := BitBoard.without state.pieces.occupied k
  if BitBoard.intersects occupied0 state.wormholes then occupied0 ||| state.wormholes
  else occupied0

/-- The wormhole-expanded relevant-slider set `blockable.rs ray` casts
against for a direction. -/
def relevantExpanded (state : BoardState) (d : Ray) : Nat :=
  let rel := sliderRelevant state d
  if BitBoard.intersects state.wormholes rel then rel ||| state.wormholes else rel

/-- The potential-blocker occupancy of `blockable.rs ray`: occupied squares
that are not themselves relevant sliders. -/
def canBlockOf (state : BoardState) (k : Square) (d : Ray) : Nat :=
  blockOccupied state k &&& bnot (sliderRelevant state d)

-- # Theorems
-- ## Basic bit-level lemmas

theorem toMask_eq (s : Square) : s.toMask = 2 ^ s.idx := by
  simp [Square.toMask, Nat.shiftLeft_eq]

theorem and_two_pow_eq_zero_iff (b i : Nat) :
    b &&& 2 ^ i = 0 ↔ b.testBit i = false := by
  constructor
  · intro h
    have h2 := congrArg (fun x => Nat.testBit x i) h
    simpa [Nat.testBit_and, Nat.testBit_two_pow_self] using h2
  · intro h
    apply Nat.eq_of_testBit_eq
    intro j
    rw [Nat.testBit_and, Nat.testBit_two_pow]
    by_cases hij : i = j
    · subst hij; simp [h]
    · simp [hij]

theorem hasSq_eq_testBit (b : Nat) (sq : Square) :
    BitBoard.hasSq b sq = b.testBit sq.idx := by
  unfold BitBoard.hasSq
  rw [toMask_eq]
  cases h : b.testBit sq.idx with
  | false =>
    have h0 : b &&& 2 ^ sq.idx = 0 := (and_two_pow_eq_zero_iff b sq.idx).2 h
    simp [h0]
  | true =>
    have h0 : ¬(b &&& 2 ^ sq.idx = 0) := by
      intro hc
      rw [(and_two_pow_eq_zero_iff b sq.idx).1 hc] at h
      cases h
    simp [bne_iff_ne, h0]

-- ## Trailing and leading zero counts

theorem ctzAux_spec : ∀ fuel n, n ≠ 0 → n < 2 ^ fuel →
    n.testBit (ctzAux fuel n) = true ∧ ∀ j, j < ctzAux fuel n → n.testBit j = false := by
  intro fuel
  induction fuel with
  | zero => intro n h0 hlt; simp at hlt; omega
  | succ fuel ih =>
    intro n h0 hlt
    by_cases h : n % 2 = 1
    · refine ⟨?_, ?_⟩
      · simp [ctzAux, h]
      · intro j hj; simp [ctzAux, h] at hj
    · have h2 : n / 2 ≠ 0 := by omega
      have hlt2 : n / 2 < 2 ^ fuel := by
        rw [Nat.pow_succ] at hlt; omega
      obtain ⟨hb, hlow⟩ := ih (n / 2) h2 hlt2
      refine ⟨?_, ?_⟩
      · simp only [ctzAux, h, if_false]
        rw [Nat.testBit_add_one]
        exact hb
      · intro j hj
        simp only [ctzAux, h, if_false] at hj
        cases j with
        | zero => simp only [Nat.testBit_zero]; simp; omega
        | succ j => rw [Nat.testBit_add_one]; exact hlow j (by omega)

theorem ctz_testBit {o : Nat} (h0 : o ≠ 0) (hlt : o < 2 ^ 64) :
    o.testBit (ctz o) = true := by
  unfold ctz
  rw [if_neg h0]
  exact (ctzAux_spec 64 o h0 hlt).1

theorem ctz_min {o : Nat} (h0 : o ≠ 0) (hlt : o < 2 ^ 64) :
    ∀ j, j < ctz o → o.testBit j = false := by
  unfold ctz
  rw [if_neg h0]
  exact (ctzAux_spec 64 o h0 hlt).2

theorem ctz_le_63 {o : Nat} (h0 : o ≠ 0) (hlt : o < 2 ^ 64) : ctz o ≤ 63 := by
  have hb := ctz_testBit h0 hlt
  have hge := Nat.testBit_implies_ge hb
  by_contra hgt
  have : (2 : Nat) ^ 64 ≤ 2 ^ ctz o := Nat.pow_le_pow_right (by omega) (by omega)
  omega

theorem flogAux_spec : ∀ fuel n, n ≠ 0 → n < 2 ^ fuel →
    2 ^ flogAux fuel n ≤ n ∧ n < 2 ^ (flogAux fuel n + 1) := by
  intro fuel
  induction fuel with
  | zero => intro n h0 hlt; simp at hlt; omega
  | succ fuel ih =>
    intro n h0 hlt
    by_cases h : n < 2
    · have h1 : n = 1 := by omega
      subst h1
      simp [flogAux]
    · have h2 : n / 2 ≠ 0 := by omega
      have hlt2 : n / 2 < 2 ^ fuel := by
        rw [Nat.pow_succ] at hlt; omega
      obtain ⟨hlo, hhi⟩ := ih (n / 2) h2 hlt2
      have heq : flogAux (fuel + 1) n = flogAux fuel (n / 2) + 1 := by
        simp [flogAux, h]
      rw [heq]
      rw [Nat.pow_succ, Nat.pow_succ] at *
      omega

theorem flog2_testBit {o : Nat} (h0 : o ≠ 0) (hlt : o < 2 ^ 64) :
    o.testBit (flog2 o) = true := by
  obtain ⟨hlo, hhi⟩ := flogAux_spec 64 o h0 hlt
  rw [Nat.testBit_to_div_mod]
  have hd1 : 1 ≤ o / 2 ^ flog2 o := (Nat.le_div_iff_mul_le (Nat.pos_pow_of_pos _ (by omega))).2 (by
    simpa using hlo)
  have hd2 : o / 2 ^ flog2 o < 2 := by
    rw [Nat.div_lt_iff_lt_mul (Nat.pos_pow_of_pos _ (by omega))]
    calc o < 2 ^ (flog2 o + 1) := hhi
    _ = 2 * 2 ^ flog2 o := by rw [Nat.pow_succ]; ring
  have : o / 2 ^ flog2 o = 1 := by omega
  simp [this]

theorem flog2_max {o : Nat} (h0 : o ≠ 0) (hlt : o < 2 ^ 64) :
    ∀ j, flog2 o < j → o.testBit j = false := by
  intro j hj
  obtain ⟨_, hhi⟩ := flogAux_spec 64 o h0 hlt
  rw [show flogAux 64 o = flog2 o from rfl] at hhi
  exact Nat.testBit_lt_two_pow (lt_of_lt_of_le hhi (Nat.pow_le_pow_right (by omega) (by omega)))

theorem flog2_le_63 {o : Nat} (h0 : o ≠ 0) (hlt : o < 2 ^ 64) : flog2 o ≤ 63 := by
  obtain ⟨hlo, _⟩ := flogAux_spec 64 o h0 hlt
  rw [show flogAux 64 o = flog2 o from rfl] at hlo
  by_contra hgt
  have : (2 : Nat) ^ 64 ≤ 2 ^ flog2 o := Nat.pow_le_pow_right (by omega) (by omega)
  omega

-- ## Ray truncation against the first blocker

theorem truncateLt_testBit {ray : Nat} (occ : Nat) (hray : ray < 2 ^ 64) (t : Nat) :
    (truncateLt ray occ).testBit t = true ↔
      ray.testBit t = true ∧
        ∀ u, ray.testBit u = true → u < t → occ.testBit u = false := by
  simp only [truncateLt]
  by_cases h0 : ray &&& occ = 0
  · rw [if_pos h0]
    constructor
    · intro ht
      refine ⟨ht, ?_⟩
      intro u hu _
      cases hocc : occ.testBit u with
      | false => rfl
      | true =>
        have hou : (ray &&& occ).testBit u = true := by
          rw [Nat.testBit_and, hu, hocc]; rfl
        rw [h0] at hou
        simp at hou
    · exact fun h => h.1
  · rw [if_neg h0]
    have hocclt : ray &&& occ < 2 ^ 64 := lt_of_le_of_lt Nat.and_le_left hray
    have hbit := ctz_testBit h0 hocclt
    have hmin := ctz_min h0 hocclt
    have hle := ctz_le_63 h0 hocclt
    have hmask : ∀ v, (U64MAX >>> (63 - ctz (ray &&& occ))).testBit v =
        decide (v ≤ ctz (ray &&& occ)) := by
      intro v
      rw [show U64MAX = 2 ^ 64 - 1 from rfl, Nat.testBit_shiftRight,
        Nat.testBit_two_pow_sub_one, decide_eq_decide]
      omega
    constructor
    · intro h
      rw [Nat.testBit_and, Bool.and_eq_true, hmask, decide_eq_true_eq] at h
      obtain ⟨ht, hti⟩ := h
      refine ⟨ht, ?_⟩
      intro u hu hut
      cases hocc : occ.testBit u with
      | false => rfl
      | true =>
        have hou : (ray &&& occ).testBit u = true := by
          rw [Nat.testBit_and, hu, hocc]; rfl
        have hnotlt : ¬u < ctz (ray &&& occ) := by
          intro hlt
          rw [hmin u hlt] at hou
          cases hou
        omega
    · intro h
      obtain ⟨ht, hall⟩ := h
      rw [Nat.testBit_and, Bool.and_eq_true, hmask, decide_eq_true_eq]
      refine ⟨ht, ?_⟩
      by_contra hti
      have hrayi : ray.testBit (ctz (ray &&& occ)) = true := by
        have hb := hbit
        rw [Nat.testBit_and, Bool.and_eq_true] at hb
        exact hb.1
      have hocci : occ.testBit (ctz (ray &&& occ)) = true := by
        have hb := hbit
        rw [Nat.testBit_and, Bool.and_eq_true] at hb
        exact hb.2
      have hf := hall (ctz (ray &&& occ)) hrayi (by omega)
      rw [hocci] at hf
      cases hf

theorem truncateGt_testBit {ray : Nat} (occ : Nat) (hray : ray < 2 ^ 64) (t : Nat) :
    (truncateGt ray occ).testBit t = true ↔
      ray.testBit t = true ∧
        ∀ u, ray.testBit u = true → t < u → occ.testBit u = false := by
  simp only [truncateGt]
  by_cases h0 : ray &&& occ = 0
  · rw [if_pos h0]
    constructor
    · intro ht
      refine ⟨ht, ?_⟩
      intro u hu _
      cases hocc : occ.testBit u with
      | false => rfl
      | true =>
        have hou : (ray &&& occ).testBit u = true := by
          rw [Nat.testBit_and, hu, hocc]; rfl
        rw [h0] at hou
        simp at hou
    · exact fun h => h.1
  · rw [if_neg h0]
    have hocclt : ray &&& occ < 2 ^ 64 := lt_of_le_of_lt Nat.and_le_left hray
    have hbit := flog2_testBit h0 hocclt
    have hmax := flog2_max h0 hocclt
    have hle := flog2_le_63 h0 hocclt
    have hlz : 63 - lz (ray &&& occ) = flog2 (ray &&& occ) := by
      rw [lz, if_neg h0]
      omega
    rw [hlz]
    have hmask : ∀ v, ((U64MAX <<< flog2 (ray &&& occ)) &&& U64MAX).testBit v =
        decide (flog2 (ray &&& occ) ≤ v ∧ v < 64) := by
      intro v
      rw [Nat.testBit_and, Nat.testBit_shiftLeft,
        show U64MAX = 2 ^ 64 - 1 from rfl, Nat.testBit_two_pow_sub_one,
        Nat.testBit_two_pow_sub_one]
      by_cases hv1 : flog2 (ray &&& occ) ≤ v
      · by_cases hv2 : v < 64
        · have hv3 : v - flog2 (ray &&& occ) < 64 := by omega
          simp [hv1, hv2, hv3, ge_iff_le]
        · simp [hv1, hv2, ge_iff_le]
      · simp [hv1, ge_iff_le]
    constructor
    · intro h
      rw [Nat.testBit_and, Bool.and_eq_true, hmask, decide_eq_true_eq] at h
      obtain ⟨ht, hti, _⟩ := h
      refine ⟨ht, ?_⟩
      intro u hu hut
      cases hocc : occ.testBit u with
      | false => rfl
      | true =>
        have hou : (ray &&& occ).testBit u = true := by
          rw [Nat.testBit_and, hu, hocc]; rfl
        have hnotgt : ¬flog2 (ray &&& occ) < u := by
          intro hlt
          rw [hmax u hlt] at hou
          cases hou
        omega
    · intro h
      obtain ⟨ht, hall⟩ := h
      rw [Nat.testBit_and, Bool.and_eq_true, hmask, decide_eq_true_eq]
      have ht64 : t < 64 := by
        by_contra h64
        have : ray < 2 ^ t :=
          lt_of_lt_of_le hray (Nat.pow_le_pow_right (by omega) (by omega))
        rw [Nat.testBit_lt_two_pow this] at ht
        cases ht
      refine ⟨ht, ?_, ht64⟩
      by_contra hti
      have hrayi : ray.testBit (flog2 (ray &&& occ)) = true := by
        have hb := hbit
        rw [Nat.testBit_and, Bool.and_eq_true] at hb
        exact hb.1
      have hocci : occ.testBit (flog2 (ray &&& occ)) = true := by
        have hb := hbit
        rw [Nat.testBit_and, Bool.and_eq_true] at hb
        exact hb.2
      have hf := hall (flog2 (ray &&& occ)) hrayi (by omega)
      rw [hocci] at hf
      cases hf

-- ## Bounds on the precomputed rays

theorem next_idx_lt {s t : Square} {d : Int × Int} (h : s.next d = some t) :
    t.idx < 64 := by
  simp only [Square.next] at h
  by_cases hc : 0 ≤ (s.rankU8 : Int) + d.1 ∧ (s.rankU8 : Int) + d.1 < 8 ∧
      0 ≤ (s.fileU8 : Int) + d.2 ∧ (s.fileU8 : Int) + d.2 < 8
  · rw [if_pos hc] at h
    obtain ⟨h1, h2, h3, h4⟩ := hc
    injection h with h
    subst h
    show ((s.rankU8 : Int) + d.1).toNat <<< 3 ||| ((s.fileU8 : Int) + d.2).toNat < 64
    have h8 : ((s.rankU8 : Int) + d.1).toNat <<< 3 < 64 := by
      rw [Nat.shiftLeft_eq]
      omega
    have hor : ((s.rankU8 : Int) + d.1).toNat <<< 3 ||| ((s.fileU8 : Int) + d.2).toNat < 2 ^ 6 :=
      Nat.or_lt_two_pow h8 (by omega)
    omega
  · rw [if_neg hc] at h
    cases h

theorem walk_idx_lt (d : Int × Int) : ∀ n s, ∀ t ∈ walk d n s, t.idx < 64 := by
  intro n
  induction n with
  | zero => intro s t ht; cases ht
  | succ n ih =>
    intro s t ht
    unfold walk at ht
    cases hn : s.next d with
    | none => rw [hn] at ht; cases ht
    | some u =>
      rw [hn] at ht
      rcases List.mem_cons.1 ht with h | h
      · subst h; exact next_idx_lt hn
      · exact ih u t h

theorem maskOfList_lt {l : List Square} (h : ∀ t ∈ l, t.idx < 64) :
    maskOfList l < 2 ^ 64 := by
  unfold maskOfList
  suffices hgen : ∀ acc, acc < 2 ^ 64 → l.foldl (fun m t => m ||| t.toMask) acc < 2 ^ 64 by
    exact hgen 0 (by positivity)
  induction l with
  | nil => intro acc hacc; exact hacc
  | cons x xs ih =>
    intro acc hacc
    have hx : x.toMask < 2 ^ 64 := by
      rw [toMask_eq]
      exact Nat.pow_lt_pow_right (by omega) (h x (List.mem_cons_self x xs))
    exact ih (fun t ht => h t (List.mem_cons_of_mem x ht)) _ (Nat.or_lt_two_pow hacc hx)

theorem rayTable_lt (d : Ray) (sq : Square) : rayTable d sq < 2 ^ 64 :=
  maskOfList_lt (walk_idx_lt d.delta 8 sq)

-- ## Claim C8: ray casting truncates at the first blocker

/-- C8: for every direction, source square and occupancy mask, `Ray::cast`
returns exactly the squares of the precomputed exclusive ray that have no
occupied ray square strictly before them in travel order — that is, all
squares strictly along the direction from the source up to and including
the first occupied square (the nearest blocker: the lowest set bit of the
ray-occupancy intersection in ascending directions, the highest in
descending ones), or the full unobstructed precomputed ray when no ray
square is occupied. -/
theorem C8_ray_cast_first_blocker (d : Ray) (src : Square) (occ t : Nat) :
    (Ray.cast d src occ).testBit t = true ↔
      (rayTable d src).testBit t = true ∧
        ∀ u, (rayTable d src).testBit u = true → rayBefore d u t →
          occ.testBit u = false := by
  unfold Ray.cast rayBefore
  cases hasc : d.ascending with
  | true =>
    simp only [if_true]
    exact truncateLt_testBit occ (rayTable_lt d src) t
  | false =>
    simp only [Bool.false_eq_true, if_false]
    exact truncateGt_testBit occ (rayTable_lt d src) t

-- ## Claim C3: wormhole transmission

/-- C3: for every mask `m` and live-wormhole mask `w`, `transmit` expands an
intersecting mask by union with the wormhole set and leaves a disjoint mask
unchanged. -/
theorem C3_transmit_spec (m w : Nat) :
    (m &&& w ≠ 0 → BitBoard.transmit m w = m ||| w) ∧
    (m &&& w = 0 → BitBoard.transmit m w = m) := by
  unfold BitBoard.transmit BitBoard.intersects
  constructor
  · intro h
    simp [bne_iff_ne, h]
  · intro h
    simp [h]

theorem C3_transmit_spec_witness :
    BitBoard.transmit 1 3 = 1 ||| 3 ∧ BitBoard.transmit 1 2 = 1 :=
  ⟨(C3_transmit_spec 1 3).1 (by decide), (C3_transmit_spec 1 2).2 (by decide)⟩

-- ## Claim C10: the 3-bit piece codec

/-- C10: the piece codec does not round-trip every kind: `to_u8` sends Rook
to 3 and King to 4 while `from_u8` decodes 3 as King and 4 as Rook, so the
round trip swaps Rook and King; the other four kinds do round-trip. -/
theorem C10_piece_codec_swaps_rook_king :
    Piece.fromU8 (Piece.toU8 .Rook) = some .King ∧
    Piece.fromU8 (Piece.toU8 .King) = some .Rook ∧
    Piece.fromU8 (Piece.toU8 .Bishop) = some .Bishop ∧
    Piece.fromU8 (Piece.toU8 .Knight) = some .Knight ∧
    Piece.fromU8 (Piece.toU8 .Queen) = some .Queen ∧
    Piece.fromU8 (Piece.toU8 .Pawn) = some .Pawn := by decide

-- ## Claim C1: the next/prev round trip

/-- C1: the round trip fails on castle rights. In `stateKingMove` the king
move e1-e2 is legal (`trace` accepts it); the delta `play` builds for it
records only the RESULTING rights `0b1100`, and `prev` never restores the
old rights, so `next` followed by `prev` yields a state whose castle rights
are 12 while the original state had 15. Every other field round-trips here,
as the final conjunct shows. -/
theorem C1_next_prev_loses_castle_rights :
    trace stateKingMove ⟨4⟩ ⟨12⟩ none ≠ none ∧
    ((stateKingMove.next deltaKingMove).prev deltaKingMove).castle.rights = 12 ∧
    stateKingMove.castle.rights = 15 ∧
    (stateKingMove.next deltaKingMove).prev deltaKingMove =
      { stateKingMove with castle := { stateKingMove.castle with rights := 12 } } := by
  decide

-- ## Claim C2: trace never accepts what compute excludes

/-- C2: refuted at `stateRook`. The plain rook move a1-a4 is not in the mask
`compute2` returns for a1 — its rook branch casts the diagonal
`bishop_moves` rays — yet `trace` accepts a1-a4, so `trace` does accept a
(src, dst) pair whose destination `compute` excludes. -/
theorem C2_trace_accepts_outside_compute :
    BitBoard.hasSq (compute2 stateRook ⟨0⟩ none U64MAX) ⟨24⟩ = false ∧
    trace stateRook ⟨0⟩ ⟨24⟩ none ≠ none := by decide

-- ## Claim C5: compute for knight/bishop/rook/queen

/-- C5: refuted at the standard start position. The b1 knight is
unconstrained (`blockable` is all-ones) yet `compute2` keeps the
friendly-occupied square d2 in its result, because it intersects the raw
mask with `!friendly | blockable` rather than removing friendly occupancy
and intersecting with blockable; the claimed formula excludes d2. -/
theorem C5_compute2_keeps_friendly_square :
    blockable BoardState.default ⟨1⟩ = U64MAX ∧
    BitBoard.hasSq (BoardState.default.pieces.onTeam .White) ⟨11⟩ = true ∧
    BitBoard.hasSq (compute2 BoardState.default ⟨1⟩ none U64MAX) ⟨11⟩ = true ∧
    compute2 BoardState.default ⟨1⟩ none U64MAX ≠
      (Square.knightMoves ⟨1⟩ &&& bnot (BoardState.default.pieces.onTeam .White)) &&&
        blockable BoardState.default ⟨1⟩ := by decide

-- ## Claim C6: the rook-onto-king castling trigger

/-- C6: refuted at `stateRook`. The a1 rook is not pinned (`blockable` is
all-ones) and `can_castle` holds for the long side — and `trace` accepts
a1-e1 as the long-castle trigger — but `compute2` does not offer the king's
square e1, because its guard is inverted: it enters the castling branch
only when `blockable != !0`, i.e. when the rook IS constrained. -/
theorem C6_rook_castle_trigger_inverted :
    blockable stateRook ⟨0⟩ = U64MAX ∧
    canCastle .Long .White stateRook.castle (defense stateRook)
      (BitBoard.transmit stateRook.pieces.occupied stateRook.wormholes) ⟨4⟩ = true ∧
    (trace stateRook ⟨0⟩ ⟨4⟩ none).map MoveTrace.isCastle = some (some .Long) ∧
    BitBoard.hasSq (compute2 stateRook ⟨0⟩ none U64MAX) ⟨4⟩ = false := by decide

-- ## Claim C7: defense is the attacked-square set

/-- C7: the claim's concrete instance holds — with the White king on e1 and
a Black rook on e8 and nothing else, `defense` contains every square e1..e7
(indices 4, 12, .., 52), and with the king on e4 the mask still contains
e1, e2, e3, since rays are cast with the moving side's king removed from
the occupancy — but the universal sentence fails on the code: in
`stateHolePawnKg3` the Black pawn on the live wormhole a5 attacks f4
through the g5 exit, yet `pawn_defense` casts pawn attacks only from the
pawn's literal square (where every other piece kind casts from every live
hole), so f4 is missing from `defense`; `compute2` therefore offers the
king move g3-f4, after which `trace` accepts a5xf4 through the wormhole,
reporting the capture of the King. -/
theorem C7_defense_misses_wormhole_pawn_attack :
    (∀ i ∈ [4, 12, 20, 28, 36, 44, 52], (defense stateRookFile).testBit i = true) ∧
    (∀ i ∈ [4, 12, 20], (defense stateRookFileKingE4).testBit i = true) ∧
    BitBoard.hasSq (defense stateHolePawnKg3) ⟨29⟩ = false ∧
    BitBoard.hasSq (compute2 stateHolePawnKg3 ⟨22⟩ none U64MAX) ⟨29⟩ = true ∧
    BitBoard.hasSq (compute2 stateHolePawnKf4 ⟨32⟩ none U64MAX) ⟨29⟩ = true ∧
    (trace stateHolePawnKf4 ⟨32⟩ ⟨29⟩ none).map MoveTrace.captures =
      some (some .King) := by decide

-- ## Claim C9: Chess960 starting-state invariants

/-- C9: refuted at seed 0. The bishop fix-up of `init_chess960` compares the
parities of `indices[5]` and `indices[6]` although the bishops are placed on
files `indices[6]` and `indices[7]`, and the two ordering swaps do not
establish rook-king-rook order. For seed 0 both White bishops stand on b1
and d1 — files 1 and 3, both dark squares — and the recorded castle files
are long rook 4, king 0, short rook 5, so the king's file is not strictly
between the rook files. -/
theorem C9_chess960_invariants_fail_seed0 :
    (initChess960 ⟨0⟩).pieces.bishops &&& (initChess960 ⟨0⟩).pieces.white =
      (1 <<< 1) ||| (1 <<< 3) ∧
    (initChess960 ⟨0⟩).castle.settings.longFile = 4 ∧
    (initChess960 ⟨0⟩).castle.settings.kingFile = 0 ∧
    (initChess960 ⟨0⟩).castle.settings.shortFile = 5 := by decide

-- ## Mask-containment machinery for claim C4

theorem bbSub_refl (x : Nat) : bbSub x x := Nat.and_self x

theorem bbSub_and_left (x y : Nat) : bbSub (x &&& y) x := by
  unfold bbSub
  rw [Nat.and_assoc, Nat.and_comm y x, ← Nat.and_assoc, Nat.and_self]

theorem bbSub_and_right (x y : Nat) : bbSub (x &&& y) y := by
  unfold bbSub
  rw [Nat.and_assoc, Nat.and_self]

theorem bbSub_zero (x : Nat) : bbSub 0 x := Nat.zero_and x

theorem bbSub_trans {x y z : Nat} (h1 : bbSub x y) (h2 : bbSub y z) : bbSub x z := by
  unfold bbSub at *
  calc x &&& z = (x &&& y) &&& z := by rw [h1]
  _ = x &&& (y &&& z) := Nat.and_assoc x y z
  _ = x &&& y := by rw [h2]
  _ = x := h1

theorem foldl_bbSub {α : Type} {f : Nat → α → Nat}
    (hf : ∀ acc x, bbSub (f acc x) acc) :
    ∀ (L : List α) (acc : Nat), bbSub (L.foldl f acc) acc := by
  intro L
  induction L with
  | nil => intro acc; exact bbSub_refl acc
  | cons x xs ih => intro acc; exact bbSub_trans (ih (f acc x)) (hf acc x)

theorem directStep_sub (b rel : Nat) : bbSub (directStep b rel) b := by
  unfold directStep
  cases h : BitBoard.count rel with
  | zero => exact bbSub_refl b
  | succ n =>
    cases n with
    | zero => exact bbSub_and_left b rel
    | succ m => exact bbSub_zero b

theorem blockableDirect_sub (b : Nat) (table : Square → Nat) (relevant holes : Nat)
    (king : Square) : bbSub (blockableDirect b table relevant holes king) b := by
  unfold blockableDirect
  dsimp only
  split
  · exact foldl_bbSub (fun acc x => directStep_sub acc _) _ b
  · split
    · exact bbSub_trans (bbSub_and_left _ _) (directStep_sub b _)
    · exact directStep_sub b _

theorem bbSub_ite {P : Prop} [Decidable P] {x y b : Nat} (hx : bbSub x b) (hy : bbSub y b) :
    bbSub (if P then x else y) b := by
  split
  · exact hx
  · exact hy

theorem blockableRay_sub (b occupied relevant0 : Nat) (d : Ray) (piece : Square)
    (holes : Nat) (king : Square) :
    bbSub (blockableRay b occupied relevant0 d piece holes king) b := by
  unfold blockableRay
  dsimp only
  split
  · apply foldl_bbSub
    intro acc x
    dsimp only
    exact bbSub_ite (bbSub_ite (bbSub_and_left _ _) (bbSub_refl _)) (bbSub_refl _)
  · refine bbSub_ite (bbSub_ite (bbSub_trans (foldl_bbSub ?_ _ _) ?_) ?_) ?_
    · intro acc x
      dsimp only
      exact bbSub_ite (bbSub_ite (bbSub_and_left _ _) (bbSub_refl _)) (bbSub_refl _)
    all_goals
      exact bbSub_ite (bbSub_ite (bbSub_and_left _ _) (bbSub_refl _)) (bbSub_refl _)

-- ## Population count of a single square

theorem popAux_zero : ∀ fuel, popAux fuel 0 = 0 := by
  intro fuel
  induction fuel with
  | zero => rfl
  | succ fuel ih => simp [popAux, ih]

theorem popAux_two_pow : ∀ fuel k, k < fuel → popAux fuel (2 ^ k) = 1 := by
  intro fuel
  induction fuel with
  | zero => omega
  | succ fuel ih =>
    intro k hk
    cases k with
    | zero => simp [popAux, popAux_zero]
    | succ k =>
      have h2 : 2 ^ (k + 1) % 2 = 0 := by
        rw [Nat.pow_succ, Nat.mul_mod_left]
      have h3 : 2 ^ (k + 1) / 2 = 2 ^ k := by
        rw [Nat.pow_succ]
        omega
      simp [popAux, h2, h3, ih k (by omega)]

theorem count_toMask {p : Square} (h : p.idx < 64) : BitBoard.count p.toMask = 1 := by
  unfold BitBoard.count
  rw [toMask_eq]
  exact popAux_two_pow 64 p.idx h

-- ## Cast rays live inside the precomputed rays

theorem truncateLt_testBit_imp {ray occ j : Nat}
    (h : (truncateLt ray occ).testBit j = true) : ray.testBit j = true := by
  unfold truncateLt at h
  dsimp only at h
  split at h
  · exact h
  · rw [Nat.testBit_and, Bool.and_eq_true] at h
    exact h.1

theorem truncateGt_testBit_imp {ray occ j : Nat}
    (h : (truncateGt ray occ).testBit j = true) : ray.testBit j = true := by
  unfold truncateGt at h
  dsimp only at h
  split at h
  · exact h
  · rw [Nat.testBit_and, Bool.and_eq_true] at h
    exact h.1

theorem cast_testBit_imp {d : Ray} {s : Square} {occ j : Nat}
    (h : (Ray.cast d s occ).testBit j = true) : (rayTable d s).testBit j = true := by
  unfold Ray.cast at h
  split at h
  · exact truncateLt_testBit_imp h
  · exact truncateGt_testBit_imp h

-- ## No precomputed ray contains its own source

theorem rayTable_not_self_pp : ∀ k < 64, (rayTable .PosPos ⟨k⟩).testBit k = false := by decide

theorem rayTable_not_self_nn : ∀ k < 64, (rayTable .NegNeg ⟨k⟩).testBit k = false := by decide

theorem rayTable_not_self_pn : ∀ k < 64, (rayTable .PosNeg ⟨k⟩).testBit k = false := by decide

theorem rayTable_not_self_np : ∀ k < 64, (rayTable .NegPos ⟨k⟩).testBit k = false := by decide

theorem rayTable_not_self_pz : ∀ k < 64, (rayTable .PosZero ⟨k⟩).testBit k = false := by decide

theorem rayTable_not_self_nz : ∀ k < 64, (rayTable .NegZero ⟨k⟩).testBit k = false := by decide

theorem rayTable_not_self_zp : ∀ k < 64, (rayTable .ZeroPos ⟨k⟩).testBit k = false := by decide

theorem rayTable_not_self_zn : ∀ k < 64, (rayTable .ZeroNeg ⟨k⟩).testBit k = false := by decide

theorem rayTable_not_self (d : Ray) (k : Square) :
    (rayTable d k).testBit k.idx = false := by
  by_cases hk : k.idx < 64
  · cases d
    · exact rayTable_not_self_pp k.idx hk
    · exact rayTable_not_self_nn k.idx hk
    · exact rayTable_not_self_pn k.idx hk
    · exact rayTable_not_self_np k.idx hk
    · exact rayTable_not_self_pz k.idx hk
    · exact rayTable_not_self_nz k.idx hk
    · exact rayTable_not_self_zp k.idx hk
    · exact rayTable_not_self_zn k.idx hk
  · exact Nat.testBit_lt_two_pow
      (lt_of_lt_of_le (rayTable_lt d k) (Nat.pow_le_pow_right (by omega) (by omega)))

theorem first_eq_some {b : Nat} {k : Square} (h : BitBoard.first b = some k) :
    b ≠ 0 ∧ k = ⟨ctz b⟩ := by
  unfold BitBoard.first at h
  by_cases hb : b = 0
  · subst hb
    simp at h
  · refine ⟨hb, ?_⟩
    rw [if_pos (by simpa [bne_iff_ne] using hb)] at h
    injection h with h
    exact h.symm

-- ## The firing ray constraint of blockable

theorem turnDirect_sub (t : Team) (b rel holes : Nat) (king : Square) :
    bbSub (match t with
      | .White => blockableDirect b WHITE_PAWN_ATTACKS rel holes king
      | .Black => blockableDirect b BLACK_PAWN_ATTACKS rel holes king) b := by
  cases t
  · exact blockableDirect_sub b WHITE_PAWN_ATTACKS rel holes king
  · exact blockableDirect_sub b BLACK_PAWN_ATTACKS rel holes king

theorem blockableRay_fired {occupied relevant0 relx R : Nat} {d : Ray}
    {piece king : Square} {holes : Nat}
    (hrelx : relx =
      if BitBoard.intersects holes relevant0 then relevant0 ||| holes else relevant0)
    (hRdef : R = Ray.cast d king relx)
    (hkh : BitBoard.hasSq holes king = false)
    (hR : BitBoard.intersects R relx = true)
    (hcount : BitBoard.count ((occupied &&& bnot relevant0) &&& R) = 1)
    (hhas : BitBoard.hasSq R piece = true) :
    ∀ b, bbSub (blockableRay b occupied relevant0 d piece holes king) R := by
  intro b
  unfold blockableRay
  dsimp only
  rw [hkh, if_neg Bool.false_ne_true, ← hrelx, ← hRdef]
  have hc2 : (BitBoard.count ((occupied &&& bnot relevant0) &&& R) == 0 ||
      (BitBoard.count ((occupied &&& bnot relevant0) &&& R) == 1 &&
        BitBoard.hasSq R piece)) = true := by
    rw [hcount, hhas]
    rfl
  have hB1 : bbSub (if BitBoard.intersects R relx = true then
      if (BitBoard.count ((occupied &&& bnot relevant0) &&& R) == 0 ||
          (BitBoard.count ((occupied &&& bnot relevant0) &&& R) == 1 &&
            BitBoard.hasSq R piece)) = true then b &&& R else b
      else b) R := by
    rw [if_pos hR, if_pos hc2]
    exact bbSub_and_right b R
  refine bbSub_ite (bbSub_ite (bbSub_trans (foldl_bbSub ?_ _ _) hB1) hB1) hB1
  intro acc x
  dsimp only
  exact bbSub_ite (bbSub_ite (bbSub_and_left _ _) (bbSub_refl _)) (bbSub_refl _)

-- ## Claim C4: the blockable mask of a pinned piece

/-- C4 (amended): whenever removing the friendly piece on `p` would expose
the moving side's king `k` — not itself on a live wormhole — to an enemy
slider (the ray cast from the king through the relevant enemy sliders in
direction `d` hits one, and the potential blockers on that truncated ray
are exactly `{p}`), `blockable state p` is contained in that truncated ray
(the squares between king and attacker plus the attacker's own square) and
is never the all-squares mask. Other simultaneous attackers intersect
further constraints into the mask, so it equals the ray exactly only when
this slider is the sole constraint — the original claim's unqualified
equality is refuted by `C4_blockable_pin_not_exact`. -/
theorem C4_blockable_pin_subset (state : BoardState) (p k : Square) (d : Ray)
    (hk : BitBoard.first (state.pieces.get .King state.turn) = some k)
    (hk64 : state.pieces.get .King state.turn < 2 ^ 64)
    (hkh : BitBoard.hasSq state.wormholes k = false)
    (hR : BitBoard.intersects (Ray.cast d k (relevantExpanded state d))
        (relevantExpanded state d) = true)
    (hblk : canBlockOf state k d &&& Ray.cast d k (relevantExpanded state d) = p.toMask) :
    bbSub (blockable state p) (Ray.cast d k (relevantExpanded state d)) ∧
    blockable state p ≠ U64MAX := by
  have hptest : (Ray.cast d k (relevantExpanded state d)).testBit p.idx = true := by
    have h1 : (canBlockOf state k d &&&
        Ray.cast d k (relevantExpanded state d)).testBit p.idx = true := by
      rw [hblk, toMask_eq]
      exact Nat.testBit_two_pow_self
    rw [Nat.testBit_and, Bool.and_eq_true] at h1
    exact h1.2
  have hp64 : p.idx < 64 := by
    have h2 := cast_testBit_imp hptest
    have h3 := Nat.testBit_implies_ge h2
    have h4 := rayTable_lt d k
    by_contra hge
    have h5 : (2 : Nat) ^ 64 ≤ 2 ^ p.idx := Nat.pow_le_pow_right (by omega) (by omega)
    omega
  have hcount : BitBoard.count
      (canBlockOf state k d &&& Ray.cast d k (relevantExpanded state d)) = 1 := by
    rw [hblk]
    exact count_toMask hp64
  have hhas : BitBoard.hasSq (Ray.cast d k (relevantExpanded state d)) p = true := by
    rw [hasSq_eq_testBit]
    exact hptest
  have hsub : bbSub (blockable state p) (Ray.cast d k (relevantExpanded state d)) := by
    unfold blockable
    rw [hk]
    dsimp only
    cases d
    · refine bbSub_trans (turnDirect_sub _ _ _ _ _) ?_
      refine bbSub_trans (blockableRay_sub _ _ _ _ _ _ _) ?_
      refine bbSub_trans (blockableRay_sub _ _ _ _ _ _ _) ?_
      refine bbSub_trans (blockableRay_sub _ _ _ _ _ _ _) ?_
      refine bbSub_trans (blockableRay_sub _ _ _ _ _ _ _) ?_
      refine bbSub_trans (blockableRay_sub _ _ _ _ _ _ _) ?_
      refine bbSub_trans (blockableRay_sub _ _ _ _ _ _ _) ?_
      refine bbSub_trans (blockableRay_sub _ _ _ _ _ _ _) ?_
      exact blockableRay_fired rfl rfl hkh hR hcount hhas _
    · refine bbSub_trans (turnDirect_sub _ _ _ _ _) ?_
      refine bbSub_trans (blockableRay_sub _ _ _ _ _ _ _) ?_
      refine bbSub_trans (blockableRay_sub _ _ _ _ _ _ _) ?_
      refine bbSub_trans (blockableRay_sub _ _ _ _ _ _ _) ?_
      refine bbSub_trans (blockableRay_sub _ _ _ _ _ _ _) ?_
      refine bbSub_trans (blockableRay_sub _ _ _ _ _ _ _) ?_
      refine bbSub_trans (blockableRay_sub _ _ _ _ _ _ _) ?_
      exact blockableRay_fired rfl rfl hkh hR hcount hhas _
    · refine bbSub_trans (turnDirect_sub _ _ _ _ _) ?_
      refine bbSub_trans (blockableRay_sub _ _ _ _ _ _ _) ?_
      refine bbSub_trans (blockableRay_sub _ _ _ _ _ _ _) ?_
      refine bbSub_trans (blockableRay_sub _ _ _ _ _ _ _) ?_
      refine bbSub_trans (blockableRay_sub _ _ _ _ _ _ _) ?_
      refine bbSub_trans (blockableRay_sub _ _ _ _ _ _ _) ?_
      exact blockableRay_fired rfl rfl hkh hR hcount hhas _
    · refine bbSub_trans (turnDirect_sub _ _ _ _ _) ?_
      refine bbSub_trans (blockableRay_sub _ _ _ _ _ _ _) ?_
      refine bbSub_trans (blockableRay_sub _ _ _ _ _ _ _) ?_
      refine bbSub_trans (blockableRay_sub _ _ _ _ _ _ _) ?_
      refine bbSub_trans (blockableRay_sub _ _ _ _ _ _ _) ?_
      exact blockableRay_fired rfl rfl hkh hR hcount hhas _
    · refine bbSub_trans (turnDirect_sub _ _ _ _ _) ?_
      refine bbSub_trans (blockableRay_sub _ _ _ _ _ _ _) ?_
      refine bbSub_trans (blockableRay_sub _ _ _ _ _ _ _) ?_
      refine bbSub_trans (blockableRay_sub _ _ _ _ _ _ _) ?_
      exact blockableRay_fired rfl rfl hkh hR hcount hhas _
    · refine bbSub_trans (turnDirect_sub _ _ _ _ _) ?_
      refine bbSub_trans (blockableRay_sub _ _ _ _ _ _ _) ?_
      refine bbSub_trans (blockableRay_sub _ _ _ _ _ _ _) ?_
      exact blockableRay_fired rfl rfl hkh hR hcount hhas _
    · refine bbSub_trans (turnDirect_sub _ _ _ _ _) ?_
      refine bbSub_trans (blockableRay_sub _ _ _ _ _ _ _) ?_
      exact blockableRay_fired rfl rfl hkh hR hcount hhas _
    · refine bbSub_trans (turnDirect_sub _ _ _ _ _) ?_
      exact blockableRay_fired rfl rfl hkh hR hcount hhas _
  have hkidx : k.idx < 64 := by
    obtain ⟨hbne, hkeq⟩ := first_eq_some hk
    have h6 := ctz_le_63 hbne hk64
    rw [hkeq]
    show ctz _ < 64
    omega
  have hRk : (Ray.cast d k (relevantExpanded state d)).testBit k.idx = false := by
    cases hb : (Ray.cast d k (relevantExpanded state d)).testBit k.idx with
    | false => rfl
    | true =>
      have h2 := cast_testBit_imp hb
      rw [rayTable_not_self d k] at h2
      cases h2
  refine ⟨hsub, ?_⟩
  intro heq
  rw [heq] at hsub
  unfold bbSub at hsub
  have h3 := congrArg (fun x => Nat.testBit x k.idx) hsub
  simp only [Nat.testBit_and, hRk, Bool.and_false] at h3
  rw [show U64MAX = 2 ^ 64 - 1 from rfl, Nat.testBit_two_pow_sub_one] at h3
  simp [hkidx] at h3

theorem C4_blockable_pin_subset_witness :
    bbSub (blockable statePin ⟨28⟩)
      (Ray.cast .PosZero ⟨4⟩ (relevantExpanded statePin .PosZero)) ∧
    blockable statePin ⟨28⟩ ≠ U64MAX :=
  C4_blockable_pin_subset statePin ⟨28⟩ ⟨4⟩ .PosZero (by decide) (by decide) (by decide)
    (by decide) (by decide)

/-- C4 counterexample: in `statePinPlusCheck` the rook on e4 is the sole
potential blocker on the king's e-file ray to the queen on e8 — the claim's
premise (its removal would expose the king to a slider, with exactly that
one blocker between king and attacker) holds — but a black knight on d3
simultaneously checks the king, so `blockable` is the empty mask, not the
nonempty between-plus-attacker ray the claim demands. -/
theorem C4_blockable_pin_not_exact :
    BitBoard.intersects
      (Ray.cast .PosZero ⟨4⟩ (relevantExpanded statePinPlusCheck .PosZero))
      (relevantExpanded statePinPlusCheck .PosZero) = true ∧
    canBlockOf statePinPlusCheck ⟨4⟩ .PosZero &&&
      Ray.cast .PosZero ⟨4⟩ (relevantExpanded statePinPlusCheck .PosZero) =
        (⟨28⟩ : Square).toMask ∧
    blockable statePinPlusCheck ⟨28⟩ = 0 ∧
    Ray.cast .PosZero ⟨4⟩ (relevantExpanded statePinPlusCheck .PosZero) ≠ 0 := by decide

end Maulstrom
